import Mathlib

/-!
# dvla-licence-finder-wrapper: the lookup pipeline of `main.go`

A shallow embedding of `main.go` and a verification of its specification.

Modelling conventions.

* A Go `string` is the list of its Unicode code points (`GoString`).  Every byte test
  that the embedded library code makes is a test for an ASCII byte, and the two layouts
  the program parses dates with consist of ASCII only, so reading code points instead of
  bytes changes no result on well-formed UTF-8 text.  (Where a Go string holds a byte
  that is not UTF-8, `strings.Map` reads it as U+FFFD, which is a code point here.)
* A Go function returning `(T, error)` returns a pair `T × Option GoError`; `none` is
  the `nil` error.
* The network is an argument: `httpClient` maps the form that is posted to either the
  error of one of the transport steps (building the request, `Do`, the charset reader,
  `html.Parse`) or the parsed document.
* A `time.Time` is kept as the calendar fields that its `Date` method reports in its
  own location, with the clock reading and the zone offset next to them.
* Library code (`strings`, `unicode`, `time`, `strconv`, `htmlquery`) is embedded as far
  as `main.go` reaches into it; package `time` as it stands since Go 1.20 (`parse`,
  `skip`, `getnum`, `lookup`, `atoi`, `appendInt`, `quote`).  The Unicode case table,
  which is data and not code, is the parameter `caseTable`: the upper-case mapping of
  the code points above U+007F.
-/

namespace Dvla

/-! ## Strings and errors -/

/-- Go strings, as lists of code points. -/
abbrev GoString := List Char

/-- The fields of a `*time.ParseError`. -/
structure ParseError where
  Layout : GoString
  Value : GoString
  LayoutElem : GoString
  ValueElem : GoString
  Message : GoString
deriving DecidableEq

/-- The error values that flow through the program: `errors.New` strings, parse errors
of package `time`, and errors raised outside the program (transport, JSON). -/
inductive GoError where
  | errorString (s : GoString)
  | parseError (e : ParseError)
  | external (msg : GoString)
deriving DecidableEq

/-- Go `errors.New`. -/
def errors.New (text : GoString) : GoError := .errorString text

/-- The hexadecimal digit of a nibble (`lowerhex` of package `time`). -/
def hexByte (n : Nat) : Char := "0123456789abcdef".data.getD n '0'

/-- One rune of `quote` of package `time`: non-printing and non-ASCII runes are written
as the hexadecimal escapes of their UTF-8 bytes, the double quote and the backslash are
escaped. -/
def quoteRune (c : Char) : GoString :=
  if c.toNat ≥ 0x80 ∨ c.toNat < 0x20 then
    (String.utf8EncodeChar c).flatMap
      (fun b => ['\\', 'x', hexByte (b.toNat / 16), hexByte (b.toNat % 16)])
  else if c = '"' ∨ c = '\\' then ['\\', c]
  else [c]

/-- Go `quote` of package `time`. -/
def quote (s : GoString) : GoString :=
  ['"'] ++ s.flatMap quoteRune ++ ['"']

/-- Go `(*ParseError).Error`. -/
def ParseError.Error (e : ParseError) : GoString :=
  if e.Message = [] then
    "parsing time ".data ++ quote e.Value ++ " as ".data ++ quote e.Layout ++
      ": cannot parse ".data ++ quote e.ValueElem ++ " as ".data ++ quote e.LayoutElem
  else "parsing time ".data ++ quote e.Value ++ e.Message

/-- The `Error` method of an error value. -/
def GoError.Error : GoError → GoString
  | .errorString s => s
  | .parseError e => e.Error
  | .external msg => msg

/-- Go `newParseError` of package `time`. -/
def newParseError (layout value layoutElem valueElem message : GoString) : GoError :=
  .parseError ⟨layout, value, layoutElem, valueElem, message⟩

/-! ## Gender -/

/-- Go `type Gender int`. -/
abbrev Gender := Int

/-- The constant `Unknown Gender = 0`. -/
def Unknown : Gender := 0

/-- The constant `Male Gender = 1`. -/
def Male : Gender := 1

/-- The constant `Female Gender = 2`. -/
def Female : Gender := 2

/-- The first loop of `strings.ToUpper`: every byte is below `utf8.RuneSelf`. -/
def isASCIIString (s : GoString) : Bool := s.all (fun c => decide (c.toNat < 0x80))

/-- The flag `hasLower` of `strings.ToUpper`: some byte lies in `a..z`. -/
def hasLower (s : GoString) : Bool := s.any (fun c => decide (97 ≤ c.toNat ∧ c.toNat ≤ 122))

/-- The ASCII case shift `c -= 'a' - 'A'` applied to the bytes in `a..z`. -/
def upperASCII (c : Char) : Char :=
  if 97 ≤ c.toNat ∧ c.toNat ≤ 122 then Char.ofNat (c.toNat - 32) else c

/-- Go `unicode.ToUpper`: ASCII is shifted directly, every other rune goes through the
Unicode case table. -/
def unicode.ToUpper (caseTable : Char → Char) (r : Char) : Char :=
  if r.toNat ≤ 0x7F then upperASCII r else caseTable r

/-- Go `strings.ToUpper`: the ASCII fast path, and `Map(unicode.ToUpper, s)` otherwise. -/
def strings.ToUpper (caseTable : Char → Char) (s : GoString) : GoString :=
  if isASCIIString s then
    if !hasLower s then s else s.map upperASCII
  else s.map (unicode.ToUpper caseTable)

/-- Go `parseGender` (main.go 279-287). -/
def parseGender (caseTable : Char → Char) (genderString : GoString) : Gender :=
  if strings.ToUpper caseTable genderString = "MALE".data then Male
  else if strings.ToUpper caseTable genderString = "FEMALE".data then Female
  else Unknown

/-- Specification side: `c` is the upper-case ASCII letter `u` or its lower-case form. -/
def sameLetter (c u : Char) : Bool := c == u || c.toNat == u.toNat + 32

/-- Specification side: `s` equals the upper-case word `w` in some mix of upper and
lower case. -/
def equalsAnyCase : GoString → GoString → Bool
  | [], [] => true
  | c :: s, u :: w => sameLetter c u && equalsAnyCase s w
  | _, _ => false

/-- The upper-case letters that occur in the two gender tokens. -/
def tokenLetters : List Char := "MALEF".data

/-- A sample of the Unicode case table: the two code points above U+007F whose upper
case is an ASCII letter (dotless i, long s), one accented letter, identity elsewhere. -/
def sampleCaseTable (r : Char) : Char :=
  if r.toNat = 0x131 then 'I'
  else if r.toNat = 0x17F then 'S'
  else if r.toNat = 0xE9 then Char.ofNat 0xC9
  else r

/-! ## Package time: calendar dates, Format and Parse for the two layouts -/

/-- A `time.Time`, by the calendar fields `Date` reports in the value's own location
(`year`, `month`, `day`), the clock reading in seconds and nanoseconds, and the zone
offset in seconds east of UTC. -/
structure Time where
  year : Int
  month : Nat
  day : Nat
  clock : Nat
  nsec : Nat
  offset : Int
deriving DecidableEq

/-- The zero value `time.Time{}`: 1 January of year 1, midnight, UTC. -/
def Time.zero : Time := ⟨1, 1, 1, 0, 0, 0⟩

/-- Go `(Time).Date`. -/
def Time.Date (t : Time) : Int × Nat × Nat := (t.year, t.month, t.day)

/-- The layout elements the two layouts of the program are made of. -/
inductive Std where
  | stdLongYear
  | stdZeroMonth
  | stdZeroDay
  | stdMonth
deriving DecidableEq

/-- One result of `nextStdChunk`: the literal text before a layout element, the element,
and the text of the element in the layout. -/
structure Chunk where
  pfx : GoString
  std : Std
  stdstr : GoString
deriving DecidableEq

/-- A layout string with the chunks `nextStdChunk` cuts it into and the literal text
after the last element. -/
structure Layout where
  text : GoString
  chunks : List Chunk
  tail : GoString
deriving DecidableEq

/-- The layout `2006-01-02` of the JSON wire format. -/
def layoutISO : Layout :=
  ⟨"2006-01-02".data,
   [⟨[], .stdLongYear, "2006".data⟩, ⟨"-".data, .stdZeroMonth, "01".data⟩,
    ⟨"-".data, .stdZeroDay, "02".data⟩], []⟩

/-- The layout `02 Jan 2006` of the upstream page. -/
def layoutDMY : Layout :=
  ⟨"02 Jan 2006".data,
   [⟨[], .stdZeroDay, "02".data⟩, ⟨" ".data, .stdMonth, "Jan".data⟩,
    ⟨" ".data, .stdLongYear, "2006".data⟩], []⟩

/-- Go `shortMonthNames`. -/
def shortMonthNames : List GoString :=
  ["Jan".data, "Feb".data, "Mar".data, "Apr".data, "May".data, "Jun".data,
   "Jul".data, "Aug".data, "Sep".data, "Oct".data, "Nov".data, "Dec".data]

/-- Go `daysBefore`. -/
def daysBefore : List Nat := [0, 31, 59, 90, 120, 151, 181, 212, 243, 273, 304, 334, 365]

/-- Go `isLeap`; `%` of Go truncates, as `Int.tmod`. -/
def isLeap (year : Int) : Bool :=
  year.tmod 4 == 0 && (year.tmod 100 != 0 || year.tmod 400 == 0)

/-- Go `daysIn`. -/
def daysIn (m : Int) (year : Int) : Int :=
  if m == 2 && isLeap year then 29
  else (daysBefore.getD m.toNat 0 : Int) - (daysBefore.getD (m.toNat - 1) 0 : Int)

/-- The calendar fields of a `time.Time` always name a real date. -/
def Time.valid (t : Time) : Prop :=
  1 ≤ t.month ∧ t.month ≤ 12 ∧ 1 ≤ t.day ∧ (t.day : Int) ≤ daysIn t.month t.year

instance (t : Time) : Decidable t.valid := by
  unfold Time.valid
  infer_instance

/-- The byte `'0' + d`. -/
def digitByte (d : Nat) : Char := Char.ofNat (48 + d)

/-- Go `appendInt` of package `time`: sign, then the decimal digits padded with zeros
to `width`; the two- and four-digit fields have their own branches, as in the source. -/
def appendInt (b : GoString) (x : Int) (width : Nat) : GoString :=
  let b := if x < 0 then b ++ ['-'] else b
  let u := x.natAbs
  if width = 2 ∧ u < 100 then
    b ++ [digitByte (u / 10), digitByte (u % 10)]
  else if width = 4 ∧ u < 10000 then
    b ++ [digitByte (u / 1000), digitByte (u / 100 % 10), digitByte (u / 10 % 10),
      digitByte (u % 10)]
  else
    let ds := Nat.toDigits 10 u
    b ++ List.replicate (width - ds.length) '0' ++ ds

/-- Go `isDigit` of package `time`. -/
def isDigit (s : GoString) (i : Nat) : Bool :=
  match s.get? i with
  | none => false
  | some c => decide (48 ≤ c.toNat ∧ c.toNat ≤ 57)

/-- Go `cutspace`. -/
def cutspace : GoString → GoString
  | [] => []
  | c :: s => if c = ' ' then cutspace s else c :: s

/-- The loop of Go `skip`; every round shortens the literal, so the length of the
literal plus one is enough fuel. The flag is `true` when no error is returned. -/
def skipLoop : Nat → GoString → GoString → GoString × Bool
  | 0, value, _ => (value, false)
  | fuel + 1, value, pfx =>
    match pfx with
    | [] => (value, true)
    | p :: ps =>
      if p = ' ' then
        match value with
        | v :: vs =>
          if v ≠ ' ' then (v :: vs, false)
          else skipLoop fuel (cutspace (v :: vs)) (cutspace (p :: ps))
        | [] => skipLoop fuel (cutspace []) (cutspace (p :: ps))
      else
        match value with
        | [] => ([], false)
        | v :: vs => if v ≠ p then (v :: vs, false) else skipLoop fuel vs ps

/-- Go `skip`: removes the literal from the front of the value, runs of spaces being
equivalent. -/
def skip (value pfx : GoString) : GoString × Bool :=
  skipLoop (pfx.length + 1) value pfx

/-- Go `getnum`: a one- or two-digit number; with `fixed` two digits are required. -/
def getnum (s : GoString) (fixed : Bool) : Int × GoString × Bool :=
  if !isDigit s 0 then (0, s, false)
  else if !isDigit s 1 then
    if fixed then (0, s, false)
    else (((s.getD 0 '0').toNat : Int) - 48, s.drop 1, true)
  else ((((s.getD 0 '0').toNat : Int) - 48) * 10 + (((s.getD 1 '0').toNat : Int) - 48),
    s.drop 2, true)

/-- Go `match` of package `time`: equality of two strings of one length, ignoring the
case of ASCII letters. -/
def matchFold : GoString → GoString → Bool
  | c1 :: s1, c2 :: s2 =>
    if c1 ≠ c2 then
      let d1 := c1.toNat ||| 32
      let d2 := c2.toNat ||| 32
      if d1 ≠ d2 ∨ d1 < 97 ∨ d1 > 122 then false else matchFold s1 s2
    else matchFold s1 s2
  | _, _ => true

/-- The loop of Go `lookup`, from table index `i` on. -/
def lookupFrom : Nat → List GoString → GoString → Int × GoString × Bool
  | _, [], val => (-1, val, false)
  | i, v :: tab, val =>
    if val.length ≥ v.length ∧ matchFold (val.take v.length) v then
      (i, val.drop v.length, true)
    else lookupFrom (i + 1) tab val

/-- Go `lookup`: the index of the table entry the value starts with. -/
def lookup (tab : List GoString) (val : GoString) : Int × GoString × Bool :=
  lookupFrom 0 tab val

/-- Go `leadingInt`, with its two overflow guards. -/
def leadingInt : GoString → Nat → Nat × GoString × Bool
  | [], x => (x, [], true)
  | c :: s, x =>
    if c.toNat < 48 ∨ c.toNat > 57 then (x, c :: s, true)
    else if x > 2 ^ 63 / 10 then (0, [], false)
    else
      let x1 := x * 10 + c.toNat - 48
      if x1 > 2 ^ 63 then (0, [], false) else leadingInt s x1

/-- Go `atoi` of package `time`. -/
def atoi (s : GoString) : Int × Bool :=
  let neg := match s with
    | c :: _ => decide (c = '-')
    | [] => false
  let s1 := match s with
    | c :: r => if c = '-' ∨ c = '+' then r else c :: r
    | [] => []
  match leadingInt s1 0 with
  | (q, rem, ok) =>
    if !ok ∨ rem.length > 0 then (0, false)
    else if neg then (-(q : Int), true) else ((q : Int), true)

/-- The fields `year`, `month`, `day` under construction in Go `parse`. -/
structure ParseState where
  year : Int
  month : Int
  day : Int
deriving DecidableEq

/-- The loop of Go `parse` over the chunks of the layout: skip the literal, then read
the element. -/
def time.parseLoop (alayout avalue : GoString) :
    List Chunk → GoString → ParseState → Except GoError (ParseState × GoString)
  | [], value, st => .ok (st, value)
  | ch :: rest, value, st =>
    match skip value ch.pfx with
    | (value, false) => .error (newParseError alayout avalue ch.pfx value [])
    | (value, true) =>
      let hold := value
      match ch.std with
      | .stdLongYear =>
        if value.length < 4 ∨ !isDigit value 0 then
          .error (newParseError alayout avalue ch.stdstr hold [])
        else
          match atoi (value.take 4) with
          | (_, false) => .error (newParseError alayout avalue ch.stdstr hold [])
          | (year, true) =>
            time.parseLoop alayout avalue rest (value.drop 4) ⟨year, st.month, st.day⟩
      | .stdMonth =>
        match lookup shortMonthNames value with
        | (_, _, false) => .error (newParseError alayout avalue ch.stdstr hold [])
        | (month, value, true) =>
          time.parseLoop alayout avalue rest value ⟨st.year, month + 1, st.day⟩
      | .stdZeroMonth =>
        match getnum value true with
        | (_, _, false) => .error (newParseError alayout avalue ch.stdstr hold [])
        | (month, value, true) =>
          if month ≤ 0 ∨ 12 < month then
            .error (newParseError alayout avalue ch.stdstr value
              ": month out of range".data)
          else time.parseLoop alayout avalue rest value ⟨st.year, month, st.day⟩
      | .stdZeroDay =>
        match getnum value true with
        | (_, _, false) => .error (newParseError alayout avalue ch.stdstr hold [])
        | (day, value, true) =>
          time.parseLoop alayout avalue rest value ⟨st.year, st.month, day⟩

/-- Go `time.Parse` for a layout made of the elements of `Std`: the chunk loop, the
check for text left over, the validation of the day, and `Date(..., UTC)` at midnight,
which keeps the validated fields as they are. -/
def time.Parse (layout : Layout) (value : GoString) : Time × Option GoError :=
  match time.parseLoop layout.text value layout.chunks value ⟨0, -1, -1⟩ with
  | .error e => (Time.zero, some e)
  | .ok (st, value1) =>
    match skip value1 layout.tail with
    | (value2, false) =>
      (Time.zero, some (newParseError layout.text value layout.tail value2 []))
    | (value2, true) =>
      if value2.length ≠ 0 then
        (Time.zero, some (newParseError layout.text value [] value2
          (": extra text: ".data ++ quote value2)))
      else
        let month := if st.month < 0 then 1 else st.month
        let day := if st.day < 0 then 1 else st.day
        if day < 1 ∨ day > daysIn month st.year then
          (Time.zero, some (newParseError layout.text value [] value2
            ": day out of range".data))
        else (⟨st.year, month.toNat, day.toNat, 0, 0, 0⟩, none)

/-- One round of Go `(Time).AppendFormat`: the literal, then the element. -/
def time.formatChunk (t : Time) (b : GoString) (ch : Chunk) : GoString :=
  let b := b ++ ch.pfx
  match ch.std with
  | .stdLongYear => appendInt b t.year 4
  | .stdMonth => b ++ (shortMonthNames.getD (t.month - 1) []).take 3
  | .stdZeroMonth => appendInt b t.month 2
  | .stdZeroDay => appendInt b t.day 2

/-- Go `(Time).Format`: it reads the calendar fields of the value in its own location. -/
def time.Format (t : Time) (layout : Layout) : GoString :=
  (layout.chunks.foldl (time.formatChunk t) []) ++ layout.tail

/-- Specification side: the text made of a two-digit day, a three-letter English month
abbreviation and a four-digit year, separated by single spaces. -/
def dayMonYear (y m d : Nat) : GoString :=
  [digitByte (d / 10), digitByte (d % 10), ' '] ++ shortMonthNames.getD (m - 1) [] ++
    [' ', digitByte (y / 1000), digitByte (y / 100 % 10), digitByte (y / 10 % 10),
      digitByte (y % 10)]

/-- An ASCII letter. -/
def isLetter (u : Char) : Prop :=
  (65 ≤ u.toNat ∧ u.toNat ≤ 90) ∨ (97 ≤ u.toNat ∧ u.toNat ≤ 122)

instance (u : Char) : Decidable (isLetter u) := by
  unfold isLetter
  infer_instance

/-- The test `lookup` makes of one table entry: the value is long enough and starts
with the entry, ignoring case. -/
def entryMatches (val v : GoString) : Prop :=
  val.length ≥ v.length ∧ matchFold (val.take v.length) v = true

instance (val v : GoString) : Decidable (entryMatches val v) := by
  unfold entryMatches
  infer_instance

/-- Specification side: the texts that read as the date `y`-`m`-`d` under the layout
`02 Jan 2006`: two digits of the day, one or more blanks, the English abbreviation of
the month in some mix of upper and lower case, one or more blanks, four digits of the
year, and the three numbers name a real calendar date. -/
def isDayMonYear (txt : GoString) (y m d : Nat) : Prop :=
  ∃ (k j : Nat) (mon : GoString),
    1 ≤ k ∧ 1 ≤ j ∧ y < 10000 ∧ (1 ≤ m ∧ m ≤ 12) ∧
    (1 ≤ d ∧ (d : Int) ≤ daysIn (m : Int) (y : Int)) ∧
    equalsAnyCase mon ((shortMonthNames.getD (m - 1) []).map upperASCII) = true ∧
    txt = [digitByte (d / 10), digitByte (d % 10)] ++ List.replicate k ' ' ++ mon ++
      List.replicate j ' ' ++
      [digitByte (y / 1000), digitByte (y / 100 % 10), digitByte (y / 10 % 10),
        digitByte (y % 10)]

/-! ## The parsed document and package htmlquery -/

/-- An attribute of an element (`html.Attribute`). -/
structure Attribute where
  Namespace : GoString
  Key : GoString
  Val : GoString
deriving DecidableEq

/-- A parsed HTML tree (`html.Node`), by node type. -/
inductive Node where
  | document (children : List Node)
  | doctype (data : GoString)
  | text (data : GoString)
  | comment (data : GoString)
  | element (data : GoString) (attr : List Attribute) (children : List Node)

mutual
/-- The element nodes of the subtree at a node, the node included, in document order. -/
def Node.elements : Node → List Node
  | .element d a cs => .element d a cs :: elementsOfList cs
  | .document cs => elementsOfList cs
  | .doctype _ => []
  | .text _ => []
  | .comment _ => []
/-- The element nodes of the subtrees of a list of siblings, in document order. -/
def elementsOfList : List Node → List Node
  | [] => []
  | n :: ns => n.elements ++ elementsOfList ns
end

/-- The nodes `//*` selects from the top node: the elements below it, in document
order. -/
def Node.descendantElements : Node → List Node
  | .element _ _ cs => elementsOfList cs
  | .document cs => elementsOfList cs
  | .doctype _ => []
  | .text _ => []
  | .comment _ => []

/-- The predicate `[@class="cls"]`: an attribute with key `class` whose value is exactly
`cls`; the navigator of htmlquery matches attributes by key. -/
def carries (cls : GoString) : Node → Bool
  | .element _ attr _ => attr.any (fun a => decide (a.Key = "class".data ∧ a.Val = cls))
  | _ => false

/-- Go `htmlquery.FindOne(top, //*[@class="cls"])`: the first element in document order
that carries the class, `none` for the nil node. -/
def htmlquery.FindOne (top : Node) (cls : GoString) : Option Node :=
  top.descendantElements.find? (carries cls)

/-- Specification side: the document has an element carrying the marker class. -/
def hasMarker (doc : Node) (cls : GoString) : Bool :=
  doc.descendantElements.any (carries cls)

mutual
/-- Go `htmlquery.InnerText`: the text nodes below the node, concatenated, comments
left out. -/
def htmlquery.InnerText : Node → GoString
  | .text d => d
  | .comment _ => []
  | .document cs => innerTextOfList cs
  | .doctype _ => []
  | .element _ _ cs => innerTextOfList cs
/-- The loop of `htmlquery.InnerText` over the children of a node. -/
def innerTextOfList : List Node → GoString
  | [] => []
  | n :: ns => htmlquery.InnerText n ++ innerTextOfList ns
end

/-- The text of the element a marker class selects, when there is one. -/
def markerText (doc : Node) (cls : GoString) : Option GoString :=
  (htmlquery.FindOne doc cls).map htmlquery.InnerText

/-! ## The program -/

/-- Go `DrivingLicenceRequest` (main.go 28-35). -/
structure DrivingLicenceRequest where
  Nino : GoString
  Forename : GoString
  Surname : GoString
  Postcode : GoString
  Gender : Gender
  DateOfBirth : Time
deriving DecidableEq

/-- The JSON members `UnmarshalJSON` decodes into its auxiliary struct, where the two
string members `dateOfBirth` and `gender` shadow the embedded fields of those names. -/
structure RequestWire where
  nino : GoString
  forename : GoString
  surname : GoString
  postcode : GoString
  gender : GoString
  dateOfBirth : GoString
deriving DecidableEq

/-- Go `(*DrivingLicenceRequest).UnmarshalJSON` (main.go 37-58), on the outcome of
`json.Unmarshal` into the auxiliary struct. -/
def DrivingLicenceRequest.UnmarshalJSON (caseTable : Char → Char)
    (decoded : Except GoError RequestWire) : DrivingLicenceRequest × Option GoError :=
  match decoded with
  | .error err => (⟨[], [], [], [], 0, Time.zero⟩, some err)
  | .ok aux =>
    match time.Parse layoutISO aux.dateOfBirth with
    | (_, some err) =>
      (⟨aux.nino, aux.forename, aux.surname, aux.postcode, 0, Time.zero⟩, some err)
    | (dateOfBirth, none) =>
      (⟨aux.nino, aux.forename, aux.surname, aux.postcode,
        parseGender caseTable aux.gender, dateOfBirth⟩, none)

/-- Go `DrivingLicenceResponse` (main.go 60-69). -/
structure DrivingLicenceResponse where
  FullName : GoString
  DrivingLicenceNumber : GoString
  DateOfBirth : Time
  Gender : Gender
  Address : GoString
  LicenceValidFrom : Time
  LicenceValidTo : Time
  LicenceIssueNo : GoString
deriving DecidableEq

/-- The zero value `DrivingLicenceResponse{}`. -/
def DrivingLicenceResponse.zero : DrivingLicenceResponse :=
  ⟨[], [], Time.zero, 0, [], Time.zero, Time.zero, []⟩

/-- The JSON members `MarshalJSON` writes: the four string members of the auxiliary
struct shadow the embedded fields of those names. -/
structure ResponseWire where
  licenceValidFrom : GoString
  licenceValidTo : GoString
  dateOfBirth : GoString
  gender : GoString
  fullName : GoString
  drivingLicenceNumber : GoString
  address : GoString
  licenceIssueNumber : GoString
deriving DecidableEq

/-- Go `(DrivingLicenceResponse).MarshalJSON` (main.go 71-93), up to the JSON text. -/
def DrivingLicenceResponse.MarshalJSON (u : DrivingLicenceResponse) : ResponseWire :=
  let gender :=
    if u.Gender = Male then "MALE".data
    else if u.Gender = Female then "FEMALE".data
    else "UNKNOWN".data
  ⟨time.Format u.LicenceValidFrom layoutISO, time.Format u.LicenceValidTo layoutISO,
    time.Format u.DateOfBirth layoutISO, gender, u.FullName, u.DrivingLicenceNumber,
    u.Address, u.LicenceIssueNo⟩

/-- Go `strconv.Itoa`. -/
def strconv.Itoa (i : Int) : GoString :=
  if i < 0 then '-' :: Nat.toDigits 10 i.natAbs else Nat.toDigits 10 i.natAbs

/-- Go `url.Values`: keys with their lists of values, in the order of the literal. -/
abbrev Values := List (GoString × List GoString)

/-- The `url.Values` literal of `fetchDrivingLicenceNumber` (main.go 181-195). -/
def formValues (pesel : GoString) (request : DrivingLicenceRequest) : Values :=
  match request.DateOfBirth.Date with
  | (yyyy, mm, dd) =>
    [("applicantPassportNumber".data, [[]]),
     ("pesel".data, [pesel]),
     ("nino".data, [request.Nino]),
     ("forename".data, [request.Forename]),
     ("surname".data, [request.Surname]),
     ("postcode".data, [request.Postcode]),
     ("gender".data, [strconv.Itoa request.Gender]),
     ("dob.day".data, [strconv.Itoa dd]),
     ("dob.month".data, [strconv.Itoa mm]),
     ("dob.year".data, [strconv.Itoa yyyy]),
     ("dwpPermission".data, ["1".data])]

/-- Go `url.Values.Get`-style access: the values stored under a key. -/
def Values.get (v : Values) (key : GoString) : Option (List GoString) :=
  (v.find? (fun kv => kv.1 == key)).map (fun kv => kv.2)

/-- Go `extractDate` (main.go 289-299). -/
def extractDate (doc : Node) (fieldClass : GoString) : Time × Option GoError :=
  match htmlquery.FindOne doc fieldClass with
  | none => (Time.zero, some (errors.New "unable to find valid from".data))
  | some dateNome =>
    match time.Parse layoutDMY (htmlquery.InnerText dateNome) with
    | (_, some err) => (Time.zero, some err)
    | (date, none) => (date, none)

/-- Go `fetchDrivingLicenceNumber` (main.go 176-277). -/
def fetchDrivingLicenceNumber (caseTable : Char → Char)
    (httpClient : Values → Except GoError Node) (pesel : GoString)
    (request : DrivingLicenceRequest) : DrivingLicenceResponse × Option GoError :=
  match httpClient (formValues pesel request) with
  | .error err => (DrivingLicenceResponse.zero, some err)
  | .ok doc =>
    match htmlquery.FindOne doc "dln-field".data with
    | none =>
      (DrivingLicenceResponse.zero, some (errors.New "unable to find driving licence".data))
    | some dlnNode =>
      let number := htmlquery.InnerText dlnNode
      match extractDate doc "licence-valid-from-field".data with
      | (_, some err) => (DrivingLicenceResponse.zero, some err)
      | (validFrom, none) =>
        match extractDate doc "licence-valid-to-field".data with
        | (_, some err) => (DrivingLicenceResponse.zero, some err)
        | (validTo, none) =>
          match extractDate doc "dob-field".data with
          | (_, some err) => (DrivingLicenceResponse.zero, some err)
          | (dateOfBirth, none) =>
            match htmlquery.FindOne doc "name".data with
            | none =>
              (DrivingLicenceResponse.zero, some (errors.New "unable to find full name".data))
            | some fullNameNode =>
              let fullName := htmlquery.InnerText fullNameNode
              match htmlquery.FindOne doc "address-field".data with
              | none =>
                (DrivingLicenceResponse.zero,
                  some (errors.New "unable to find address".data))
              | some addressNode =>
                let address := htmlquery.InnerText addressNode
                match htmlquery.FindOne doc "issue-number-field".data with
                | none =>
                  (DrivingLicenceResponse.zero,
                    some (errors.New "unable to find license issue number".data))
                | some licenceIssueNumberNode =>
                  let licenceIssueNumber := htmlquery.InnerText licenceIssueNumberNode
                  match htmlquery.FindOne doc "gender-field".data with
                  | none =>
                    (DrivingLicenceResponse.zero,
                      some (errors.New "unable to find gender".data))
                  | some genderNode =>
                    let genderString := htmlquery.InnerText genderNode
                    let gender := parseGender caseTable genderString
                    (⟨fullName, number, dateOfBirth, gender, address, validFrom, validTo,
                      licenceIssueNumber⟩, none)

/-- Go `fetchPesel` (main.go 149-174): the fixed token. -/
def fetchPesel : GoString × Option GoError :=
  ("f36ab3a6916d131953e2cb48a5243e7b".data, none)

/-- Go `getDrivingLicenceNumber` (main.go 124-147). -/
def getDrivingLicenceNumber (caseTable : Char → Char)
    (httpClient : Values → Except GoError Node) (request : DrivingLicenceRequest) :
    DrivingLicenceResponse × Option GoError :=
  match fetchPesel with
  | (_, some err) => (DrivingLicenceResponse.zero, some err)
  | (pesel, none) =>
    match fetchDrivingLicenceNumber caseTable httpClient pesel request with
    | (_, some err) => (DrivingLicenceResponse.zero, some err)
    | (drivingLicenceNumber, none) => (drivingLicenceNumber, none)

/-- What a call wrote to the `http.ResponseWriter`: plain text, or a value sent through
the JSON encoder. -/
inductive Written where
  | text (s : GoString)
  | json (v : ResponseWire)
deriving DecidableEq

/-- An operand printed on the standard output of the process by `fmt.Print`. -/
inductive Printed where
  | responseWriter
  | str (s : GoString)
deriving DecidableEq

/-- The observable result of one run of the handler: the status code and body of the
HTTP response, and what the handler itself printed on standard output. -/
structure Exchange where
  status : Nat
  body : List Written
  stdout : List Printed
deriving DecidableEq

/-- The handler either panics with the decode error or completes the exchange. -/
inductive Outcome where
  | panicked (err : GoError)
  | completed (x : Exchange)
deriving DecidableEq

/-- The handler registered in `main` (main.go 98-115).  On a pipeline error it calls
`w.WriteHeader(http.StatusBadRequest)` and then `fmt.Print(w, err.Error())`, which
prints its two operands on standard output and writes nothing to `w`. -/
def handler (caseTable : Char → Char) (httpClient : Values → Except GoError Node)
    (decoded : Except GoError RequestWire) : Outcome :=
  match DrivingLicenceRequest.UnmarshalJSON caseTable decoded with
  | (_, some err) => .panicked err
  | (t, none) =>
    match getDrivingLicenceNumber caseTable httpClient t with
    | (_, some err) => .completed ⟨400, [], [.responseWriter, .str err.Error]⟩
    | (drivingLicenceNumber, none) =>
      .completed ⟨200, [.json drivingLicenceNumber.MarshalJSON], []⟩

/-- The plain text of a response body. -/
def bodyText (body : List Written) : GoString :=
  body.flatMap (fun w => match w with
    | .text s => s
    | .json _ => [])

/-- Specification side: the text `sub` occurs in `s`. -/
def mentions (s sub : GoString) : Bool :=
  s.tails.any (fun t => sub.isPrefixOf t)

/-! ## The eight fields, in the order the extraction checks them -/

/-- The eight fields of the response, named as the specification names them. -/
inductive Field where
  | licenceNumber
  | validFrom
  | validTo
  | dateOfBirth
  | fullName
  | address
  | issueNumber
  | gender
deriving DecidableEq

/-- The marker class `fetchDrivingLicenceNumber` looks a field up by. -/
def Field.marker : Field → GoString
  | .licenceNumber => "dln-field".data
  | .validFrom => "licence-valid-from-field".data
  | .validTo => "licence-valid-to-field".data
  | .dateOfBirth => "dob-field".data
  | .fullName => "name".data
  | .address => "address-field".data
  | .issueNumber => "issue-number-field".data
  | .gender => "gender-field".data

/-- The three fields read through `extractDate`. -/
def Field.isDate : Field → Bool
  | .validFrom => true
  | .validTo => true
  | .dateOfBirth => true
  | _ => false

/-- The position of the check of a field in `fetchDrivingLicenceNumber`. -/
def Field.rank : Field → Nat
  | .licenceNumber => 0
  | .validFrom => 1
  | .validTo => 2
  | .dateOfBirth => 3
  | .fullName => 4
  | .address => 5
  | .issueNumber => 6
  | .gender => 7

/-- The fields in the order of their checks. -/
def Field.order : List Field :=
  [.licenceNumber, .validFrom, .validTo, .dateOfBirth, .fullName, .address, .issueNumber,
    .gender]

/-- Specification side: the words by which an error message names a field. -/
def Field.label : Field → GoString
  | .licenceNumber => "driving licence".data
  | .validFrom => "valid from".data
  | .validTo => "valid to".data
  | .dateOfBirth => "date of birth".data
  | .fullName => "full name".data
  | .address => "address".data
  | .issueNumber => "issue number".data
  | .gender => "gender".data

/-- The error with which the check of one field in `fetchDrivingLicenceNumber` fails on
a document, `none` when the check passes (main.go 220-262). -/
def fieldError (doc : Node) : Field → Option GoError
  | .licenceNumber =>
    match htmlquery.FindOne doc "dln-field".data with
    | none => some (errors.New "unable to find driving licence".data)
    | some _ => none
  | .validFrom => (extractDate doc "licence-valid-from-field".data).2
  | .validTo => (extractDate doc "licence-valid-to-field".data).2
  | .dateOfBirth => (extractDate doc "dob-field".data).2
  | .fullName =>
    match htmlquery.FindOne doc "name".data with
    | none => some (errors.New "unable to find full name".data)
    | some _ => none
  | .address =>
    match htmlquery.FindOne doc "address-field".data with
    | none => some (errors.New "unable to find address".data)
    | some _ => none
  | .issueNumber =>
    match htmlquery.FindOne doc "issue-number-field".data with
    | none => some (errors.New "unable to find license issue number".data)
    | some _ => none
  | .gender =>
    match htmlquery.FindOne doc "gender-field".data with
    | none => some (errors.New "unable to find gender".data)
    | some _ => none

/-- Specification side: the field can be read from the document: its marker element is
present and, for a date field, the text of the element parses. -/
def fieldOk (doc : Node) (f : Field) : Bool :=
  match markerText doc f.marker with
  | none => false
  | some txt => if f.isDate then (time.Parse layoutDMY txt).2.isNone else true

/-! ## Sample data -/

/-- An element carrying a marker class around one text node. -/
def markerElement (cls text : GoString) : Node :=
  .element "dd".data [⟨[], "class".data, cls⟩] [.text text]

/-- A document with the given nodes in its body. -/
def page (fields : List Node) : Node :=
  .document [.doctype "html".data,
    .element "html".data []
      [.element "head".data [] [], .element "body".data [] fields]]

/-- Marker classes and texts of a complete upstream page. -/
def sampleFields : List (GoString × GoString) :=
  [("dln-field".data, "DOE99005059JA9AB".data),
   ("licence-valid-from-field".data, "05 Jan 2020".data),
   ("licence-valid-to-field".data, "04 Jan 2030".data),
   ("dob-field".data, "05 May 1990".data),
   ("name".data, "Jane Doe".data),
   ("address-field".data, "1 High Street".data),
   ("issue-number-field".data, "12".data),
   ("gender-field".data, "Female".data)]

/-- The page built from a list of marker classes and texts. -/
def pageOf (fields : List (GoString × GoString)) : Node :=
  page (fields.map (fun f => markerElement f.1 f.2))

/-- Removes the entry of one marker class. -/
def dropField (cls : GoString) (fields : List (GoString × GoString)) :
    List (GoString × GoString) :=
  fields.filter (fun f => f.1 != cls)

/-- Replaces the text of one marker class. -/
def setField (cls text : GoString) (fields : List (GoString × GoString)) :
    List (GoString × GoString) :=
  fields.map (fun f => if f.1 == cls then (f.1, text) else f)

/-- The complete sample page. -/
def samplePage : Node := pageOf sampleFields

/-- The sample page without the element of one marker class. -/
def pageWithout (cls : GoString) : Node := pageOf (dropField cls sampleFields)

/-- The sample page whose valid-from text is in the wire format and whose full-name
element is absent. -/
def badDateNoNamePage : Node :=
  pageOf (dropField "name".data
    (setField "licence-valid-from-field".data "2020-01-05".data sampleFields))

/-- The response that is read from the complete sample page. -/
def sampleResponse : DrivingLicenceResponse :=
  ⟨"Jane Doe".data, "DOE99005059JA9AB".data, ⟨1990, 5, 5, 0, 0, 0⟩, Female,
    "1 High Street".data, ⟨2020, 1, 5, 0, 0, 0⟩, ⟨2030, 1, 4, 0, 0, 0⟩, "12".data⟩

/-- The request of the end-to-end scenarios of the specification. -/
def sampleRequest : DrivingLicenceRequest :=
  ⟨"AB123456C".data, "Jane".data, "Doe".data, "SW1A 1AA".data, Female,
    ⟨1990, 5, 5, 0, 0, 0⟩⟩

/-- The JSON members of the request of the end-to-end scenarios. -/
def sampleWire : RequestWire :=
  ⟨"AB123456C".data, "Jane".data, "Doe".data, "SW1A 1AA".data, "FEMALE".data,
    "1990-05-05".data⟩

/-! # Theorems -/

/-! ## Characters and case -/

/-- The code point of `Char.ofNat n` is `n` for ASCII `n`. -/
theorem toNat_ofNat_small : ∀ n : Nat, n < 128 → (Char.ofNat n).toNat = n := by
  decide

/-- Characters with the same code point are equal. -/
theorem char_eq_of_toNat {c d : Char} (h : c.toNat = d.toNat) : c = d := by
  rw [← Char.ofNat_toNat c, ← Char.ofNat_toNat d, h]

/-- Equality of characters is equality of code points. -/
theorem char_eq_iff_toNat (c d : Char) : c = d ↔ c.toNat = d.toNat :=
  ⟨fun h => by rw [h], char_eq_of_toNat⟩

/-- The code point of the ASCII upper-case form. -/
theorem upperASCII_toNat (c : Char) (h : c.toNat ≤ 0x7F) :
    (upperASCII c).toNat = if 97 ≤ c.toNat ∧ c.toNat ≤ 122 then c.toNat - 32 else c.toNat := by
  unfold upperASCII
  split
  · rw [toNat_ofNat_small _ (by omega)]
  · rfl

/-- Both paths of `strings.ToUpper` map `unicode.ToUpper` over the string. -/
theorem strings_ToUpper_eq_map (caseTable : Char → Char) (s : GoString) :
    strings.ToUpper caseTable s = s.map (unicode.ToUpper caseTable) := by
  unfold strings.ToUpper
  split
  · rename_i hA
    have hmap : s.map upperASCII = s.map (unicode.ToUpper caseTable) := by
      apply List.map_congr_left
      intro c hc
      have : c.toNat < 0x80 := by
        simpa using (List.all_eq_true.mp hA) c hc
      unfold unicode.ToUpper
      rw [if_pos (by omega)]
    split
    · rename_i hL
      rw [← hmap]
      have hid : s.map upperASCII = s.map id := by
        apply List.map_congr_left
        intro c hc
        have hn : ¬ (97 ≤ c.toNat ∧ c.toNat ≤ 122) := by
          intro hlow
          have : hasLower s = true := by
            unfold hasLower
            exact List.any_eq_true.mpr ⟨c, hc, by simpa using hlow⟩
          simp [this] at hL
        unfold upperASCII
        rw [if_neg hn]
        rfl
      rw [hid, List.map_id]
    · exact hmap
  · rfl

/-- A rune is upper-cased to a letter of the gender tokens exactly when it is that letter in
upper or lower case. -/
theorem unicode_ToUpper_eq_letter (caseTable : Char → Char)
    (hT : ∀ r : Char, 0x7F < r.toNat → caseTable r ∉ tokenLetters)
    (c u : Char) (hu : u ∈ tokenLetters) :
    unicode.ToUpper caseTable c = u ↔ sameLetter c u = true := by
  have hub : 65 ≤ u.toNat ∧ u.toNat ≤ 77 := by
    simp [tokenLetters] at hu
    rcases hu with h | h | h | h | h <;> subst h <;> decide
  unfold unicode.ToUpper sameLetter
  by_cases hc : c.toNat ≤ 0x7F
  · rw [if_pos hc, char_eq_iff_toNat, upperASCII_toNat c hc]
    simp only [Bool.or_eq_true, beq_iff_eq, char_eq_iff_toNat c u]
    split <;> omega
  · rw [if_neg hc]
    constructor
    · intro h
      exact absurd (h ▸ hu) (hT c (by omega))
    · intro h
      simp only [Bool.or_eq_true, beq_iff_eq, char_eq_iff_toNat c u] at h
      omega

/-- A string is upper-cased to a word over the letters of the gender tokens exactly when it
is that word in some mix of case. -/
theorem map_ToUpper_eq_iff (caseTable : Char → Char)
    (hT : ∀ r : Char, 0x7F < r.toNat → caseTable r ∉ tokenLetters) :
    ∀ (s w : GoString), (∀ u ∈ w, u ∈ tokenLetters) →
      (s.map (unicode.ToUpper caseTable) = w ↔ equalsAnyCase s w = true)
  | [], [], _ => by simp [equalsAnyCase]
  | [], _ :: _, _ => by simp [equalsAnyCase]
  | _ :: _, [], _ => by simp [equalsAnyCase]
  | c :: s, u :: w, hw => by
    have ih := map_ToUpper_eq_iff caseTable hT s w (fun x hx => hw x (List.mem_cons_of_mem _ hx))
    have hc := unicode_ToUpper_eq_letter caseTable hT c u (hw u (List.mem_cons_self _ _))
    simp only [List.map_cons, List.cons.injEq, equalsAnyCase, Bool.and_eq_true, ih, hc]

/-! ## Parsing and formatting dates -/

/-- The code point of a digit byte. -/
theorem digitByte_toNat (k : Nat) (h : k < 10) : (digitByte k).toNat = 48 + k :=
  toNat_ofNat_small _ (by omega)

/-- A digit byte differs from every character outside `0..9`. -/
theorem digitByte_ne (k : Nat) (h : k < 10) (c : Char) (hc : c.toNat < 48 ∨ 57 < c.toNat) :
    digitByte k ≠ c := by
  intro e
  have := digitByte_toNat k h
  rw [e] at this
  omega

/-- A string that starts with a digit byte has a digit at index 0. -/
theorem isDigit_zero (k : Nat) (h : k < 10) (s : GoString) :
    isDigit (digitByte k :: s) 0 = true := by
  simp [isDigit, digitByte_toNat k h]
  omega

/-- A digit byte in second place is a digit at index 1. -/
theorem isDigit_one (c : Char) (k : Nat) (h : k < 10) (s : GoString) :
    isDigit (c :: digitByte k :: s) 1 = true := by
  simp [isDigit, digitByte_toNat k h]
  omega

/-- `getnum` reads two digit bytes as their decimal value. -/
theorem getnum_two_digits (a b : Nat) (ha : a < 10) (hb : b < 10) (s : GoString) :
    getnum (digitByte a :: digitByte b :: s) true = (((10 * a + b : Nat) : Int), s, true) := by
  unfold getnum
  rw [isDigit_zero a ha, isDigit_one _ b hb]
  simp [digitByte_toNat, ha, hb]
  omega

/-- One round of `leadingInt` on a digit byte, below the overflow guards. -/
theorem leadingInt_digit (k : Nat) (h : k < 10) (s : GoString) (x : Nat) (hx : x < 1000) :
    leadingInt (digitByte k :: s) x = leadingInt s (x * 10 + k) := by
  rw [leadingInt]
  have hk := digitByte_toNat k h
  rw [if_neg (by omega), if_neg (by omega)]
  simp only [hk]
  rw [if_neg (by omega)]
  congr 1
  omega

/-- `atoi` reads four digit bytes as their decimal value. -/
theorem atoi_four_digits (a b c d : Nat) (ha : a < 10) (hb : b < 10) (hc : c < 10)
    (hd : d < 10) :
    atoi [digitByte a, digitByte b, digitByte c, digitByte d] =
      (((1000 * a + 100 * b + 10 * c + d : Nat) : Int), true) := by
  have h1 : digitByte a ≠ '-' := digitByte_ne a ha _ (by decide)
  have h2 : digitByte a ≠ '+' := digitByte_ne a ha _ (by decide)
  unfold atoi
  simp only [h1, h2, decide_False, or_self, if_false]
  rw [leadingInt_digit a ha _ 0 (by omega), leadingInt_digit b hb _ _ (by omega),
    leadingInt_digit c hc _ _ (by omega), leadingInt_digit d hd _ _ (by omega)]
  simp [leadingInt]
  omega


/-- `cutspace` does not lengthen a string. -/
theorem cutspace_length_le (s : GoString) : (cutspace s).length ≤ s.length := by
  induction s with
  | nil => simp [cutspace]
  | cons c s ih =>
    unfold cutspace
    split
    · simp only [List.length_cons]
      omega
    · exact le_refl _

/-- The loop of `skip` never runs out of fuel: any two amounts of fuel above the length
of the literal give the same result, and that result is the one of `skip`. -/
theorem skipLoop_fuel (n : Nat) :
    ∀ (m : Nat) (value pfx : GoString), pfx.length < n → pfx.length < m →
      skipLoop n value pfx = skipLoop m value pfx := by
  induction n with
  | zero => intro m value pfx h; omega
  | succ n ih =>
    intro m value pfx hn hm
    cases m with
    | zero => omega
    | succ m =>
      cases pfx with
      | nil => simp [skipLoop]
      | cons p ps =>
        have hc : (cutspace (p :: ps)).length ≤ ps.length ∨ p ≠ ' ' := by
          by_cases hp : p = ' '
          · left
            subst hp
            simp only [cutspace, if_true]
            exact cutspace_length_le ps
          · right
            exact hp
        simp only [List.length_cons] at hn hm
        unfold skipLoop
        by_cases hp : p = ' '
        · simp only [if_pos hp]
          have hl : (cutspace (p :: ps)).length ≤ ps.length := by
            rcases hc with h | h
            · exact h
            · exact absurd hp h
          cases value with
          | nil => exact ih m _ _ (by omega) (by omega)
          | cons v vs =>
            simp only
            split
            · rfl
            · exact ih m _ _ (by omega) (by omega)
        · simp only [if_neg hp]
          cases value with
          | nil => rfl
          | cons v vs =>
            simp only
            split
            · rfl
            · exact ih m _ _ (by omega) (by omega)

/-- With fuel above the length of the literal the loop computes `skip`. -/
theorem skipLoop_eq_skip (n : Nat) (value pfx : GoString) (h : pfx.length < n) :
    skipLoop n value pfx = skip value pfx :=
  skipLoop_fuel n (pfx.length + 1) value pfx h (by omega)

/-- Skipping the empty literal leaves the value as it is. -/
theorem skip_nil (s : GoString) : skip s [] = (s, true) := by
  simp [skip, skipLoop]

/-- Skipping the literal `-` removes a leading `-`. -/
theorem skip_dash (s : GoString) : skip ('-' :: s) ['-'] = (s, true) := by
  simp [skip, skipLoop]

/-- `time.Parse` under `2006-01-02` on four, two and two digit bytes that name a real date.
`time.Parse` under `2006-01-02` on four, two and two digit bytes that name a real date. -/
theorem parse_ISO_digits (a b c d m1 m0 d1 d0 : Nat) (ha : a < 10) (hb : b < 10)
    (hc : c < 10) (hd : d < 10) (hm1 : m1 < 10) (hm0 : m0 < 10) (hd1 : d1 < 10)
    (hd0 : d0 < 10) (hm : 1 ≤ 10 * m1 + m0 ∧ 10 * m1 + m0 ≤ 12)
    (hday : 1 ≤ 10 * d1 + d0 ∧
      ((10 * d1 + d0 : Nat) : Int) ≤
        daysIn ((10 * m1 + m0 : Nat) : Int) ((1000 * a + 100 * b + 10 * c + d : Nat) : Int)) :
    time.Parse layoutISO
        ([digitByte a, digitByte b, digitByte c, digitByte d, '-', digitByte m1, digitByte m0,
          '-', digitByte d1, digitByte d0]) =
      (⟨((1000 * a + 100 * b + 10 * c + d : Nat) : Int), 10 * m1 + m0, 10 * d1 + d0, 0, 0, 0⟩,
        none) := by
  unfold time.Parse
  simp only [layoutISO, time.parseLoop, skip_nil, skip_dash, List.length_cons, List.length_nil,
    isDigit_zero a ha, List.take, List.drop, atoi_four_digits a b c d ha hb hc hd,
    getnum_two_digits m1 m0 hm1 hm0, getnum_two_digits d1 d0 hd1 hd0]
  rw [if_neg (by decide), if_neg (by omega)]
  have hM : ¬ (((10 * m1 + m0 : Nat) : Int) < 0) := by omega
  have hD : ¬ (((10 * d1 + d0 : Nat) : Int) < 0) := by omega
  simp only [List.length_nil, ne_eq, not_true_eq_false, if_false, if_neg hM, if_neg hD,
    Int.toNat_ofNat]
  rw [if_neg (by omega)]


/-- `appendInt` with width 2 below 100. -/
theorem appendInt_two (b : GoString) (n : Nat) (h : n < 100) :
    appendInt b (n : Int) 2 = b ++ [digitByte (n / 10), digitByte (n % 10)] := by
  unfold appendInt
  have h0 : ¬ ((n : Int) < 0) := by omega
  simp only [if_neg h0, Int.natAbs_ofNat, true_and, if_pos h]

/-- `appendInt` with width 4 below 10000. -/
theorem appendInt_four (b : GoString) (n : Nat) (h : n < 10000) :
    appendInt b (n : Int) 4 =
      b ++ [digitByte (n / 1000), digitByte (n / 100 % 10), digitByte (n / 10 % 10),
        digitByte (n % 10)] := by
  unfold appendInt
  have h0 : ¬ ((n : Int) < 0) := by omega
  have h2 : ¬ ((4 : Nat) = 2 ∧ n < 100) := by omega
  simp only [if_neg h0, Int.natAbs_ofNat, if_neg h2, true_and, if_pos h]

/-- No month has more than 31 days. -/
theorem daysIn_le (m : Int) (year : Int) (hm : 1 ≤ m ∧ m ≤ 12) : daysIn m year ≤ 31 := by
  unfold daysIn
  split
  · omega
  · obtain ⟨h1, h2⟩ := hm
    interval_cases m <;> simp [daysBefore]

/-- The text `Format` writes under `2006-01-02` for a year in 0..9999. -/
theorem Format_ISO (t : Time) (y : Nat) (hy : t.year = (y : Int)) (hy4 : y < 10000)
    (hm : t.month < 100) (hd : t.day < 100) :
    time.Format t layoutISO =
      [digitByte (y / 1000), digitByte (y / 100 % 10), digitByte (y / 10 % 10),
        digitByte (y % 10), '-', digitByte (t.month / 10), digitByte (t.month % 10), '-',
        digitByte (t.day / 10), digitByte (t.day % 10)] := by
  simp only [time.Format, layoutISO, List.foldl, time.formatChunk, hy, appendInt_four _ y hy4,
    appendInt_two _ _ hm, appendInt_two _ _ hd]
  simp

/-- Parsing what `Format` wrote under `2006-01-02` gives the calendar date back. -/
theorem Parse_Format_ISO (d : Time) (hv : d.valid) (hy : 0 ≤ d.year ∧ d.year ≤ 9999) :
    time.Parse layoutISO (time.Format d layoutISO) =
      (⟨d.year, d.month, d.day, 0, 0, 0⟩, none) := by
  obtain ⟨hm1, hm2, hd1, hd2⟩ := hv
  obtain ⟨y, hyy⟩ := Int.eq_ofNat_of_zero_le hy.1
  have hy4 : y < 10000 := by omega
  have hd3 : (d.day : Int) ≤ 31 := le_trans hd2 (daysIn_le _ _ (by omega))
  have hyd : 1000 * (y / 1000) + 100 * (y / 100 % 10) + 10 * (y / 10 % 10) + y % 10 = y := by
    omega
  have hmd : 10 * (d.month / 10) + d.month % 10 = d.month := by omega
  have hdd : 10 * (d.day / 10) + d.day % 10 = d.day := by omega
  rw [Format_ISO d y hyy hy4 (by omega) (by omega),
    parse_ISO_digits _ _ _ _ _ _ _ _ (by omega) (by omega) (by omega) (by omega) (by omega)
      (by omega) (by omega) (by omega) (by omega) (by rw [hyd, hmd, hdd, ← hyy]; exact ⟨hd1, hd2⟩),
    hyd, hmd, hdd, hyy]

/-- Skipping the literal blank removes the leading blanks of a value that starts with one.
Skipping the literal blank removes the leading blanks of a value that starts with one. -/
theorem skip_space (s : GoString) : skip (' ' :: s) [' '] = (cutspace s, true) := by
  simp [skip, skipLoop, cutspace]

/-! ## The texts the layout of the page accepts -/

/-- A number is at most its bitwise or with another. -/
theorem le_lor (n m : Nat) : n ≤ n ||| m :=
  Nat.le_of_testBit (fun i h => by simp [h])

/-- Setting bit 5 of an ASCII code. -/
theorem lor32_small : ∀ n : Nat, n < 128 → n ||| 32 = n + 32 - (n / 32 % 2) * 32 := by
  decide

/-- The test `match` makes of one byte against a letter, as a case-insensitive comparison.
The test `match` makes of one byte against a letter, as a case-insensitive comparison. -/
theorem fold_char_iff (c u : Char) (hu : isLetter u) :
    (c = u ∨ (c.toNat ||| 32 = u.toNat ||| 32 ∧ 97 ≤ c.toNat ||| 32 ∧ c.toNat ||| 32 ≤ 122)) ↔
      sameLetter c (upperASCII u) = true := by
  have hk : u.toNat < 128 := by
    rcases hu with h | h <;> omega
  have hu32 := lor32_small u.toNat hk
  have hU := upperASCII_toNat u (by omega)
  unfold sameLetter
  simp only [Bool.or_eq_true, beq_iff_eq, char_eq_iff_toNat c (upperASCII u), hU,
    char_eq_iff_toNat c u]
  by_cases hlow : 97 ≤ u.toNat ∧ u.toNat ≤ 122
  · simp only [if_pos hlow]
    constructor
    · rintro (h | ⟨h1, h2, h3⟩)
      · omega
      · have hn : c.toNat < 128 := by
          have := le_lor c.toNat 32
          omega
        have hc32 := lor32_small c.toNat hn
        omega
    · intro h
      have hn : c.toNat < 128 := by omega
      have hc32 := lor32_small c.toNat hn
      omega
  · simp only [if_neg hlow]
    have hup : 65 ≤ u.toNat ∧ u.toNat ≤ 90 := by
      rcases hu with h | h
      · exact h
      · exact absurd h hlow
    constructor
    · rintro (h | ⟨h1, h2, h3⟩)
      · omega
      · have hn : c.toNat < 128 := by
          have := le_lor c.toNat 32
          omega
        have hc32 := lor32_small c.toNat hn
        omega
    · intro h
      have hn : c.toNat < 128 := by omega
      have hc32 := lor32_small c.toNat hn
      omega

/-- One round of `match`. -/
theorem matchFold_cons (c u : Char) (s w : GoString) :
    matchFold (c :: s) (u :: w) =
      if c ≠ u then
        if c.toNat ||| 32 ≠ u.toNat ||| 32 ∨ c.toNat ||| 32 < 97 ∨ c.toNat ||| 32 > 122 then false
        else matchFold s w
      else matchFold s w := by
  rw [matchFold]

/-- `match` against a word of letters is equality in some mix of case. -/
theorem matchFold_iff :
    ∀ (s w : GoString), s.length = w.length → (∀ u ∈ w, isLetter u) →
      (matchFold s w = true ↔ equalsAnyCase s (w.map upperASCII) = true)
  | [], [], _, _ => by simp [matchFold, equalsAnyCase]
  | [], _ :: _, h, _ => by simp at h
  | _ :: _, [], h, _ => by simp at h
  | c :: s, u :: w, h, hw => by
    have ih := matchFold_iff s w (by simpa using h)
      (fun x hx => hw x (List.mem_cons_of_mem _ hx))
    have hc := fold_char_iff c u (hw u (List.mem_cons_self _ _))
    simp only [List.map_cons, equalsAnyCase, Bool.and_eq_true, ← hc, ← ih, matchFold_cons]
    by_cases hcu : c = u
    · simp [hcu]
    · simp only [ne_eq, hcu, not_false_eq_true, if_true, false_or]
      by_cases hd : ¬ (c.toNat ||| 32 = u.toNat ||| 32) ∨ c.toNat ||| 32 < 97 ∨
          c.toNat ||| 32 > 122
      · rw [if_pos hd]
        simp only [Bool.false_eq_true, false_iff, not_and]
        intro h1
        omega
      · rw [if_neg hd]
        constructor
        · intro h1
          exact ⟨by omega, h1⟩
        · intro h1
          exact h1.2


/-- A character is the upper or lower case of at most one upper-case letter. -/
theorem sameLetter_unique (c u1 u2 : Char) (h1 : 65 ≤ u1.toNat ∧ u1.toNat ≤ 90)
    (h2 : 65 ≤ u2.toNat ∧ u2.toNat ≤ 90) (e1 : sameLetter c u1 = true)
    (e2 : sameLetter c u2 = true) : u1 = u2 := by
  unfold sameLetter at e1 e2
  simp only [Bool.or_eq_true, beq_iff_eq, char_eq_iff_toNat] at e1 e2
  apply char_eq_of_toNat
  omega

/-- A string is a mix of case of at most one upper-case word. -/
theorem equalsAnyCase_unique :
    ∀ (s w1 w2 : GoString), (∀ u ∈ w1, 65 ≤ u.toNat ∧ u.toNat ≤ 90) →
      (∀ u ∈ w2, 65 ≤ u.toNat ∧ u.toNat ≤ 90) →
      equalsAnyCase s w1 = true → equalsAnyCase s w2 = true → w1 = w2
  | [], [], [], _, _, _, _ => rfl
  | [], [], _ :: _, _, _, _, e2 => by simp [equalsAnyCase] at e2
  | [], _ :: _, _, _, _, e1, _ => by simp [equalsAnyCase] at e1
  | _ :: _, [], _, _, _, e1, _ => by simp [equalsAnyCase] at e1
  | _ :: _, _ :: _, [], _, _, _, e2 => by simp [equalsAnyCase] at e2
  | c :: s, u1 :: w1, u2 :: w2, h1, h2, e1, e2 => by
    simp only [equalsAnyCase, Bool.and_eq_true] at e1 e2
    have hu := sameLetter_unique c u1 u2 (h1 u1 (List.mem_cons_self _ _))
      (h2 u2 (List.mem_cons_self _ _)) e1.1 e2.1
    have hw := equalsAnyCase_unique s w1 w2
      (fun x hx => h1 x (List.mem_cons_of_mem _ hx))
      (fun x hx => h2 x (List.mem_cons_of_mem _ hx)) e1.2 e2.2
    rw [hu, hw]

/-- A mix of case of a word has the length of the word. -/
theorem equalsAnyCase_length :
    ∀ (s w : GoString), equalsAnyCase s w = true → s.length = w.length
  | [], [], _ => rfl
  | [], _ :: _, e => by simp [equalsAnyCase] at e
  | _ :: _, [], e => by simp [equalsAnyCase] at e
  | c :: s, u :: w, e => by
    simp only [equalsAnyCase, Bool.and_eq_true] at e
    simp [equalsAnyCase_length s w e.2]

/-- One round of `lookup`. -/
theorem lookupFrom_cons (i : Nat) (v : GoString) (tab : List GoString) (val : GoString) :
    lookupFrom i (v :: tab) val =
      if entryMatches val v then ((i : Int), val.drop v.length, true)
      else lookupFrom (i + 1) tab val := by
  simp only [lookupFrom, entryMatches]

/-- A successful `lookup` returns the index of an entry that matches, and the text after it.
A successful `lookup` returns the index of an entry that matches, and the text after it. -/
theorem lookupFrom_ok (val : GoString) :
    ∀ (tab : List GoString) (i : Nat) (idx : Int) (rest : GoString),
      lookupFrom i tab val = (idx, rest, true) →
      ∃ (j : Nat) (v : GoString), tab.get? j = some v ∧ idx = ((i + j : Nat) : Int) ∧
        entryMatches val v ∧ rest = val.drop v.length
  | [], i, idx, rest, h => by simp [lookupFrom] at h
  | v :: tab, i, idx, rest, h => by
    rw [lookupFrom_cons] at h
    by_cases hm : entryMatches val v
    · rw [if_pos hm] at h
      simp only [Prod.mk.injEq, and_true] at h
      exact ⟨0, v, rfl, by simp [← h.1], hm, h.2.symm⟩
    · rw [if_neg hm] at h
      obtain ⟨j, v1, hj, hidx, hmatch, hrest⟩ := lookupFrom_ok val tab (i + 1) idx rest h
      exact ⟨j + 1, v1, by simpa using hj, by rw [hidx]; congr 1; omega, hmatch, hrest⟩

/-- `lookup` returns the first entry that matches. -/
theorem lookupFrom_first (val : GoString) :
    ∀ (tab : List GoString) (i j : Nat) (v : GoString), tab.get? j = some v →
      entryMatches val v →
      (∀ (j1 : Nat) (v1 : GoString), j1 < j → tab.get? j1 = some v1 → ¬ entryMatches val v1) →
      lookupFrom i tab val = (((i + j : Nat) : Int), val.drop v.length, true)
  | [], i, j, v, hj, _, _ => by simp at hj
  | v0 :: tab, i, 0, v, hj, hm, _ => by
    simp only [List.get?_cons_zero, Option.some.injEq] at hj
    subst hj
    rw [lookupFrom_cons, if_pos hm]
    rfl
  | v0 :: tab, i, j + 1, v, hj, hm, hfirst => by
    have h0 : ¬ entryMatches val v0 := hfirst 0 v0 (by omega) rfl
    rw [lookupFrom_cons, if_neg h0]
    have := lookupFrom_first val tab (i + 1) j v (by simpa using hj) hm
      (fun j1 v1 hlt hget => hfirst (j1 + 1) v1 (by omega) (by simpa using hget))
    rw [this]
    congr 2
    omega


/-- A character in `0..9` is a digit byte. -/
theorem char_digit (c : Char) (h : 48 ≤ c.toNat ∧ c.toNat ≤ 57) :
    c = digitByte (c.toNat - 48) := by
  apply char_eq_of_toNat
  rw [digitByte_toNat _ (by omega)]
  omega

/-- A successful fixed `getnum` has read two digit bytes. -/
theorem getnum_fixed_ok (s rest : GoString) (n : Int)
    (h : getnum s true = (n, rest, true)) :
    ∃ a b : Nat, a < 10 ∧ b < 10 ∧ s = digitByte a :: digitByte b :: rest ∧
      n = ((10 * a + b : Nat) : Int) := by
  unfold getnum at h
  match s, h with
  | [], h => simp [isDigit] at h
  | [c0], h =>
    by_cases h0 : isDigit [c0] 0 = true
    · simp [h0, isDigit] at h
    · simp [h0] at h
  | c0 :: c1 :: r, h =>
    by_cases h0 : 48 ≤ c0.toNat ∧ c0.toNat ≤ 57
    · by_cases h1 : 48 ≤ c1.toNat ∧ c1.toNat ≤ 57
      · have e0 := char_digit c0 h0
        have e1 := char_digit c1 h1
        have d0 : isDigit (c0 :: c1 :: r) 0 = true := by simp [isDigit, h0]
        have d1 : isDigit (c0 :: c1 :: r) 1 = true := by simp [isDigit, h1]
        simp only [d0, d1, Bool.not_true, Bool.false_eq_true, if_false, List.getD_cons_zero,
          List.getD_cons_succ, List.drop_succ_cons, List.drop_zero, Prod.mk.injEq,
          and_true] at h
        refine ⟨c0.toNat - 48, c1.toNat - 48, by omega, by omega, ?_, ?_⟩
        · rw [← e0, ← e1, h.2]
        · rw [← h.1]
          omega
      · have d1 : isDigit (c0 :: c1 :: r) 1 = false := by simp [isDigit, h1]
        simp [d1] at h
    · have d0 : isDigit (c0 :: c1 :: r) 0 = false := by simp [isDigit, h0]
      simp [d0] at h

/-- `skip` of the literal blank, by the shape of the value. -/
theorem skip_space_cases (v : GoString) :
    skip v " ".data =
      match v with
      | [] => ([], true)
      | c :: r => if c ≠ ' ' then (c :: r, false) else (cutspace r, true) := by
  cases v with
  | nil => simp [skip, skipLoop, cutspace]
  | cons c r =>
    by_cases hc : c = ' '
    · subst hc
      simp [skip, skipLoop, cutspace]
    · simp [skip, skipLoop, hc]

/-- `cutspace` removes a run of blanks and leaves no blank in front. -/
theorem cutspace_spec :
    ∀ r : GoString, (∃ k : Nat, r = List.replicate k ' ' ++ cutspace r) ∧
      (∀ (c : Char) (t : GoString), cutspace r = c :: t → c ≠ ' ')
  | [] => ⟨⟨0, by simp [cutspace]⟩, by simp [cutspace]⟩
  | c :: r => by
    by_cases hc : c = ' '
    · subst hc
      obtain ⟨⟨k, hk⟩, h2⟩ := cutspace_spec r
      have e : cutspace (' ' :: r) = cutspace r := by simp [cutspace]
      rw [e]
      refine ⟨⟨k + 1, ?_⟩, h2⟩
      rw [List.replicate_succ, List.cons_append, ← hk]
    · have e : cutspace (c :: r) = c :: r := by simp [cutspace, hc]
      rw [e]
      refine ⟨⟨0, by simp⟩, ?_⟩
      intro c1 t h
      simp only [List.cons.injEq] at h
      rw [← h.1]
      exact hc

/-- `cutspace` removes a run of blanks in front of a text that starts with no blank. -/
theorem cutspace_replicate (k : Nat) (r : GoString)
    (h : ∀ (c : Char) (t : GoString), r = c :: t → c ≠ ' ') :
    cutspace (List.replicate k ' ' ++ r) = r := by
  induction k with
  | zero =>
    cases r with
    | nil => simp [cutspace]
    | cons c t => simp [cutspace, h c t rfl]
  | succ k ih =>
    rw [List.replicate_succ, List.cons_append]
    simp only [cutspace, if_true]
    exact ih

/-- `leadingInt` stops at a character that is no digit. -/
theorem leadingInt_nondigit (c : Char) (s : GoString) (x : Nat)
    (h : c.toNat < 48 ∨ c.toNat > 57) : leadingInt (c :: s) x = (x, c :: s, true) := by
  rw [leadingInt, if_pos h]

/-- A successful `atoi` of four characters, the first a digit, has read four digit bytes. -/
theorem atoi_four_ok (c0 c1 c2 c3 : Char) (y : Int) (h0 : 48 ≤ c0.toNat ∧ c0.toNat ≤ 57)
    (h : atoi [c0, c1, c2, c3] = (y, true)) :
    ∃ a b c d : Nat, a < 10 ∧ b < 10 ∧ c < 10 ∧ d < 10 ∧
      [c0, c1, c2, c3] = [digitByte a, digitByte b, digitByte c, digitByte d] ∧
      y = ((1000 * a + 100 * b + 10 * c + d : Nat) : Int) := by
  have e0 := char_digit c0 h0
  by_cases h1 : 48 ≤ c1.toNat ∧ c1.toNat ≤ 57
  · by_cases h2 : 48 ≤ c2.toNat ∧ c2.toNat ≤ 57
    · by_cases h3 : 48 ≤ c3.toNat ∧ c3.toNat ≤ 57
      · have e1 := char_digit c1 h1
        have e2 := char_digit c2 h2
        have e3 := char_digit c3 h3
        refine ⟨c0.toNat - 48, c1.toNat - 48, c2.toNat - 48, c3.toNat - 48, by omega,
          by omega, by omega, by omega, by rw [← e0, ← e1, ← e2, ← e3], ?_⟩
        rw [e0, e1, e2, e3, atoi_four_digits _ _ _ _ (by omega) (by omega) (by omega)
          (by omega)] at h
        simp only [Prod.mk.injEq, and_true] at h
        exact h.symm
      · exfalso
        rw [e0, char_digit c1 h1, char_digit c2 h2] at h
        unfold atoi at h
        simp only [digitByte_ne _ (show c0.toNat - 48 < 10 by omega) '-' (by decide),
          digitByte_ne _ (show c0.toNat - 48 < 10 by omega) '+' (by decide), decide_False,
          or_self, if_false] at h
        rw [leadingInt_digit _ (by omega) _ _ (by omega),
          leadingInt_digit _ (by omega) _ _ (by omega),
          leadingInt_digit _ (by omega) _ _ (by omega),
          leadingInt_nondigit c3 [] _ (by omega)] at h
        simp at h
    · exfalso
      rw [e0, char_digit c1 h1] at h
      unfold atoi at h
      simp only [digitByte_ne _ (show c0.toNat - 48 < 10 by omega) '-' (by decide),
        digitByte_ne _ (show c0.toNat - 48 < 10 by omega) '+' (by decide), decide_False,
        or_self, if_false] at h
      rw [leadingInt_digit _ (by omega) _ _ (by omega),
        leadingInt_digit _ (by omega) _ _ (by omega),
        leadingInt_nondigit c2 _ _ (by omega)] at h
      simp at h
  · exfalso
    rw [e0] at h
    unfold atoi at h
    simp only [digitByte_ne _ (show c0.toNat - 48 < 10 by omega) '-' (by decide),
      digitByte_ne _ (show c0.toNat - 48 < 10 by omega) '+' (by decide), decide_False,
      or_self, if_false] at h
    rw [leadingInt_digit _ (by omega) _ _ (by omega),
      leadingInt_nondigit c1 _ _ (by omega)] at h
    simp at h


/-- The month abbreviations are three letters each. -/
theorem shortMonthNames_letters :
    ∀ v ∈ shortMonthNames, v.length = 3 ∧ (∀ u ∈ v, isLetter u) ∧
      (∀ u ∈ v.map upperASCII, 65 ≤ u.toNat ∧ u.toNat ≤ 90) := by
  decide

/-- No two month abbreviations are equal up to case. -/
theorem shortMonthNames_upper_injective :
    ∀ i < 12, ∀ j < 12,
      (shortMonthNames.getD i []).map upperASCII = (shortMonthNames.getD j []).map upperASCII →
      i = j := by
  decide

/-- An entry of the table of month abbreviations. -/
theorem shortMonthNames_get (j : Nat) (v : GoString) (h : shortMonthNames.get? j = some v) :
    j < 12 ∧ v ∈ shortMonthNames ∧ shortMonthNames.getD j [] = v := by
  have hlt : j < shortMonthNames.length := by
    by_contra hge
    rw [List.get?_eq_none.mpr (by omega)] at h
    cases h
  refine ⟨hlt, List.get?_mem h, ?_⟩
  rw [List.getD_eq_getElem?_getD, ← List.get?_eq_getElem?, h]
  rfl

/-- The test of `lookup` on a three-letter text and a month abbreviation. -/
theorem entryMatches_month (mon rest v : GoString) (hv : v ∈ shortMonthNames)
    (hl : mon.length = 3) :
    entryMatches (mon ++ rest) v ↔ equalsAnyCase mon (v.map upperASCII) = true := by
  obtain ⟨h3, hlet, _⟩ := shortMonthNames_letters v hv
  unfold entryMatches
  rw [h3, ← hl, List.take_left, ← matchFold_iff mon v (by omega) hlet]
  simp only [List.length_append, ge_iff_le, and_iff_right_iff_imp]
  intro _
  omega

/-- `lookup` finds the month whose abbreviation the value starts with, in any mix of case.
`lookup` finds the month whose abbreviation the value starts with, in any mix of case. -/
theorem lookup_month_any_case (m : Nat) (hm : 1 ≤ m ∧ m ≤ 12) (mon rest : GoString)
    (h : equalsAnyCase mon ((shortMonthNames.getD (m - 1) []).map upperASCII) = true) :
    lookup shortMonthNames (mon ++ rest) = (((m - 1 : Nat) : Int), rest, true) := by
  have hget : shortMonthNames.get? (m - 1) = some (shortMonthNames.getD (m - 1) []) := by
    obtain ⟨h1, h2⟩ := hm
    interval_cases m <;> rfl
  obtain ⟨hlt, hmem, _⟩ := shortMonthNames_get _ _ hget
  obtain ⟨h3, _, hup⟩ := shortMonthNames_letters _ hmem
  have hl : mon.length = 3 := by
    rw [equalsAnyCase_length _ _ h, List.length_map, h3]
  have key := lookupFrom_first (mon ++ rest) shortMonthNames 0 (m - 1) _ hget
    ((entryMatches_month mon rest _ hmem hl).mpr h)
    (by
      intro j1 v1 hj1 hget1 hmatch
      obtain ⟨hlt1, hmem1, hd1⟩ := shortMonthNames_get _ _ hget1
      obtain ⟨_, _, hup1⟩ := shortMonthNames_letters _ hmem1
      have e1 := (entryMatches_month mon rest _ hmem1 hl).mp hmatch
      have := equalsAnyCase_unique mon _ _ hup1 hup e1 h
      rw [← hd1] at this
      have := shortMonthNames_upper_injective j1 hlt1 (m - 1) hlt this
      omega)
  unfold lookup
  rw [key, h3, ← hl, List.drop_left]
  simp

/-- A successful `lookup` of a month has read a month abbreviation in some mix of case. -/
theorem lookup_month_ok (val rest : GoString) (idx : Int)
    (h : lookup shortMonthNames val = (idx, rest, true)) :
    ∃ (m : Nat) (mon : GoString), 1 ≤ m ∧ m ≤ 12 ∧ idx = ((m - 1 : Nat) : Int) ∧
      val = mon ++ rest ∧
      equalsAnyCase mon ((shortMonthNames.getD (m - 1) []).map upperASCII) = true := by
  unfold lookup at h
  obtain ⟨j, v, hget, hidx, hmatch, hrest⟩ := lookupFrom_ok val shortMonthNames 0 idx rest h
  obtain ⟨hlt, hmem, hd⟩ := shortMonthNames_get _ _ hget
  obtain ⟨h3, _, _⟩ := shortMonthNames_letters _ hmem
  have hval : val = val.take 3 ++ rest := by
    rw [hrest, h3, List.take_append_drop]
  have hlen : (val.take 3).length = 3 := by
    have := hmatch.1
    rw [List.length_take]
    omega
  refine ⟨j + 1, val.take 3, by omega, by omega, by simpa using hidx, hval, ?_⟩
  rw [hval] at hmatch
  have := (entryMatches_month (val.take 3) rest v hmem hlen).mp hmatch
  rw [Nat.add_sub_cancel, hd]
  exact this

/-- The steps of `time.Parse` under the layout `02 Jan 2006`. -/
theorem Parse_DMY_unfold (txt : GoString) :
    time.Parse layoutDMY txt =
      match getnum txt true with
      | (_, _, false) => (Time.zero, some (newParseError layoutDMY.text txt "02".data txt []))
      | (day, v1, true) =>
        match skip v1 " ".data with
        | (v2, false) => (Time.zero, some (newParseError layoutDMY.text txt " ".data v2 []))
        | (v2, true) =>
          match lookup shortMonthNames v2 with
          | (_, _, false) =>
            (Time.zero, some (newParseError layoutDMY.text txt "Jan".data v2 []))
          | (mi, v3, true) =>
            match skip v3 " ".data with
            | (v4, false) => (Time.zero, some (newParseError layoutDMY.text txt " ".data v4 []))
            | (v4, true) =>
              if v4.length < 4 ∨ !isDigit v4 0 then
                (Time.zero, some (newParseError layoutDMY.text txt "2006".data v4 []))
              else
                match atoi (v4.take 4) with
                | (_, false) =>
                  (Time.zero, some (newParseError layoutDMY.text txt "2006".data v4 []))
                | (year, true) =>
                  if (v4.drop 4).length ≠ 0 then
                    (Time.zero, some (newParseError layoutDMY.text txt [] (v4.drop 4)
                      (": extra text: ".data ++ quote (v4.drop 4))))
                  else if (if day < 0 then 1 else day) < 1 ∨
                      (if day < 0 then 1 else day) >
                        daysIn (if mi + 1 < 0 then 1 else mi + 1) year then
                    (Time.zero, some (newParseError layoutDMY.text txt [] (v4.drop 4)
                      ": day out of range".data))
                  else (⟨year, (if mi + 1 < 0 then 1 else mi + 1).toNat,
                    (if day < 0 then 1 else day).toNat, 0, 0, 0⟩, none) := by
  unfold time.Parse
  simp only [layoutDMY, time.parseLoop, skip_nil]
  generalize getnum txt true = g1
  obtain ⟨day, v1, b1⟩ := g1
  cases b1
  · rfl
  · simp only
    generalize skip v1 " ".data = g2
    obtain ⟨v2, b2⟩ := g2
    cases b2
    · rfl
    · simp only
      generalize lookup shortMonthNames v2 = g3
      obtain ⟨mi, v3, b3⟩ := g3
      cases b3
      · rfl
      · simp only
        generalize skip v3 " ".data = g4
        obtain ⟨v4, b4⟩ := g4
        cases b4
        · rfl
        · simp only
          by_cases hc : v4.length < 4 ∨ (!isDigit v4 0) = true
          · simp only [if_pos hc]
          · simp only [if_neg hc]
            generalize atoi (List.take 4 v4) = g5
            obtain ⟨year, b5⟩ := g5
            cases b5
            · rfl
            · simp only [skip_nil]


/-- A text that starts with a month abbreviation starts with no blank. -/
theorem month_head_ne_space (m : Nat) (hm : 1 ≤ m ∧ m ≤ 12) (mon : GoString)
    (h : equalsAnyCase mon ((shortMonthNames.getD (m - 1) []).map upperASCII) = true) :
    ∀ (rest : GoString) (c : Char) (t : GoString), mon ++ rest = c :: t → c ≠ ' ' := by
  have hget : shortMonthNames.get? (m - 1) = some (shortMonthNames.getD (m - 1) []) := by
    obtain ⟨h1, h2⟩ := hm
    interval_cases m <;> rfl
  obtain ⟨_, hmem, _⟩ := shortMonthNames_get _ _ hget
  obtain ⟨h3, _, hup⟩ := shortMonthNames_letters _ hmem
  intro rest c t hc
  have hl := equalsAnyCase_length _ _ h
  rw [List.length_map, h3] at hl
  cases mon with
  | nil => simp at hl
  | cons c1 s =>
    generalize (shortMonthNames.getD (m - 1) []).map upperASCII = W at h hup
    cases W with
    | nil => simp [equalsAnyCase] at h
    | cons u w =>
      simp only [equalsAnyCase, Bool.and_eq_true] at h
      have hu := hup u (List.mem_cons_self _ _)
      have h1 := h.1
      unfold sameLetter at h1
      simp only [Bool.or_eq_true, beq_iff_eq, char_eq_iff_toNat] at h1
      simp only [List.cons_append, List.cons.injEq] at hc
      rw [← hc.1]
      intro e
      rw [char_eq_iff_toNat] at e
      have : (' ' : Char).toNat = 32 := rfl
      omega

/-- `time.Parse` under `02 Jan 2006` accepts every day-month-year text and returns its date.
`time.Parse` under `02 Jan 2006` accepts every day-month-year text and returns its date. -/
theorem Parse_DMY_of_shape (txt : GoString) (y m d : Nat) (h : isDayMonYear txt y m d) :
    time.Parse layoutDMY txt = (⟨(y : Int), m, d, 0, 0, 0⟩, none) := by
  obtain ⟨k, j, mon, hk, hj, hy, hm, hd, hmon, htxt⟩ := h
  have hd3 : (d : Int) ≤ 31 := le_trans hd.2 (daysIn_le _ _ (by omega))
  have hyd : 1000 * (y / 1000) + 100 * (y / 100 % 10) + 10 * (y / 10 % 10) + y % 10 = y := by
    omega
  have hdd : 10 * (d / 10) + d % 10 = d := by omega
  obtain ⟨k1, rfl⟩ : ∃ k1, k = k1 + 1 := ⟨k - 1, by omega⟩
  obtain ⟨j1, rfl⟩ : ∃ j1, j = j1 + 1 := ⟨j - 1, by omega⟩
  have hsp : ∀ (c : Char) (t : GoString),
      [digitByte (y / 1000), digitByte (y / 100 % 10), digitByte (y / 10 % 10),
        digitByte (y % 10)] = c :: t → c ≠ ' ' := by
    intro c t hc
    simp only [List.cons.injEq] at hc
    rw [← hc.1]
    exact digitByte_ne _ (by omega) _ (by decide)
  rw [Parse_DMY_unfold, htxt]
  simp only [List.cons_append, List.nil_append, List.append_assoc, List.replicate_succ,
    getnum_two_digits (d / 10) (d % 10) (by omega) (by omega), skip_space,
    cutspace_replicate k1 _ (month_head_ne_space m hm mon hmon _),
    lookup_month_any_case m hm mon _ hmon, cutspace_replicate j1 _ hsp,
    List.length_cons, List.length_nil, isDigit_zero (y / 1000) (by omega), List.take,
    List.drop,
    atoi_four_digits (y / 1000) (y / 100 % 10) (y / 10 % 10) (y % 10) (by omega) (by omega)
      (by omega) (by omega), hyd, hdd]
  rw [if_neg (by decide)]
  have hmm : ((m - 1 : Nat) : Int) + 1 = (m : Int) := by omega
  have hM : ¬ ((m : Int) < 0) := by omega
  have hD : ¬ ((d : Int) < 0) := by omega
  simp only [List.length_nil, ne_eq, not_true_eq_false, if_false, hmm, if_neg hM, if_neg hD,
    Int.toNat_ofNat]
  rw [if_neg (by omega)]


/-- A successful `skip` of the literal blank that leaves text over has removed one or more
blanks. -/
theorem skip_space_ok (v v2 : GoString) (h : skip v " ".data = (v2, true)) (hne : v2 ≠ []) :
    ∃ k : Nat, 1 ≤ k ∧ v = List.replicate k ' ' ++ v2 := by
  rw [skip_space_cases] at h
  cases v with
  | nil =>
    simp only [Prod.mk.injEq, and_true] at h
    exact absurd h.symm hne
  | cons c r =>
    by_cases hc : c = ' '
    · subst hc
      simp only [ne_eq, not_true_eq_false, if_false, Prod.mk.injEq, and_true] at h
      obtain ⟨⟨k, hk⟩, _⟩ := cutspace_spec r
      refine ⟨k + 1, by omega, ?_⟩
      rw [List.replicate_succ, List.cons_append, ← h, ← hk]
    · simp [hc] at h

/-- `time.Parse` under `02 Jan 2006` accepts day-month-year texts only. -/
theorem Parse_DMY_ok_shape (txt : GoString) (t : Time)
    (h : time.Parse layoutDMY txt = (t, none)) :
    ∃ y m d : Nat, isDayMonYear txt y m d ∧ t = ⟨(y : Int), m, d, 0, 0, 0⟩ := by
  rw [Parse_DMY_unfold] at h
  rcases h1 : getnum txt true with ⟨day, v1, _ | _⟩
  · simp [h1] at h
  · simp only [h1] at h
    rcases h2 : skip v1 " ".data with ⟨v2, _ | _⟩
    · simp [h2] at h
    · simp only [h2] at h
      rcases h3 : lookup shortMonthNames v2 with ⟨mi, v3, _ | _⟩
      · simp [h3] at h
      · simp only [h3] at h
        rcases h4 : skip v3 " ".data with ⟨v4, _ | _⟩
        · simp [h4] at h
        · simp only [h4] at h
          by_cases hc : v4.length < 4 ∨ (!isDigit v4 0) = true
          · rw [if_pos hc] at h
            simp at h
          · simp only [if_neg hc] at h
            rcases h5 : atoi (v4.take 4) with ⟨year, _ | _⟩
            · simp [h5] at h
            · simp only [h5] at h
              by_cases hx : (v4.drop 4).length ≠ 0
              · rw [if_pos hx] at h
                simp at h
              · simp only [if_neg hx] at h
                obtain ⟨a, b, ha, hb, htxt, hday⟩ := getnum_fixed_ok txt v1 day h1
                obtain ⟨m, mon, hm1, hm2, hmi, hv2, hmon⟩ := lookup_month_ok v2 v3 mi h3
                have hmonlen : mon.length = 3 := by
                  have hget : shortMonthNames.get? (m - 1) =
                      some (shortMonthNames.getD (m - 1) []) := by
                    interval_cases m <;> rfl
                  obtain ⟨_, hmem, _⟩ := shortMonthNames_get _ _ hget
                  rw [equalsAnyCase_length _ _ hmon, List.length_map,
                    (shortMonthNames_letters _ hmem).1]
                have hv2ne : v2 ≠ [] := by
                  intro e
                  rw [e] at hv2
                  have := congrArg List.length hv2
                  simp only [List.length_nil, List.length_append] at this
                  omega
                obtain ⟨k, hk, hv1⟩ := skip_space_ok v1 v2 h2 hv2ne
                have hlen4 : v4.length = 4 := by
                  simp only [List.length_drop, ne_eq, Decidable.not_not] at hx
                  omega
                have hv4ne : v4 ≠ [] := by
                  intro e
                  rw [e] at hlen4
                  simp at hlen4
                obtain ⟨j, hj, hv3⟩ := skip_space_ok v3 v4 h4 hv4ne
                have hdig : isDigit v4 0 = true := by
                  by_contra hd
                  exact hc (Or.inr (by simp [hd]))
                match v4, hlen4, h5, hdig, hv3 with
                | [c0, c1, c2, c3], _, h5, hdig, hv3 =>
                  have h0 : 48 ≤ c0.toNat ∧ c0.toNat ≤ 57 := by
                    simpa [isDigit] using hdig
                  simp only [List.take, List.drop] at h5
                  obtain ⟨q3, q2, q1, q0, hq3, hq2, hq1, hq0, hcs, hyear⟩ :=
                    atoi_four_ok c0 c1 c2 c3 year h0 h5
                  have hmi1 : mi + 1 = (m : Int) := by omega
                  have hM : ¬ ((m : Int) < 0) := by omega
                  have hD : ¬ (day < 0) := by omega
                  simp only [hmi1, if_neg hM, if_neg hD] at h
                  by_cases hv : day < 1 ∨ day > daysIn (m : Int) year
                  · rw [if_pos hv] at h
                    simp at h
                  · simp only [if_neg hv, Prod.mk.injEq, and_true] at h
                    refine ⟨1000 * q3 + 100 * q2 + 10 * q1 + q0, m, 10 * a + b,
                      ⟨k, j, mon, hk, hj, by omega, ⟨hm1, hm2⟩, ?_, hmon, ?_⟩, ?_⟩
                    · rw [← hyear, ← hday]
                      omega
                    · have e1 : (10 * a + b) / 10 = a := by omega
                      have e2 : (10 * a + b) % 10 = b := by omega
                      have e3 : (1000 * q3 + 100 * q2 + 10 * q1 + q0) / 1000 = q3 := by omega
                      have e4 : (1000 * q3 + 100 * q2 + 10 * q1 + q0) / 100 % 10 = q2 := by
                        omega
                      have e5 : (1000 * q3 + 100 * q2 + 10 * q1 + q0) / 10 % 10 = q1 := by
                        omega
                      have e6 : (1000 * q3 + 100 * q2 + 10 * q1 + q0) % 10 = q0 := by omega
                      rw [e1, e2, e3, e4, e5, e6, htxt, hv1, hv2, hv3, hcs]
                      simp
                    · rw [← h, hyear, hday]
                      simp only [Int.toNat_ofNat]


/-- The text with single blanks and the month abbreviation as in the table is a day-month-
year text. -/
theorem isDayMonYear_dayMonYear (y m d : Nat) (hy : y < 10000) (hm : 1 ≤ m ∧ m ≤ 12)
    (hd : 1 ≤ d ∧ (d : Int) ≤ daysIn (m : Int) (y : Int)) :
    isDayMonYear (dayMonYear y m d) y m d := by
  refine ⟨1, 1, shortMonthNames.getD (m - 1) [], le_refl _, le_refl _, hy, hm, hd, ?_, ?_⟩
  · obtain ⟨h1, h2⟩ := hm
    interval_cases m <;> decide
  · simp [dayMonYear]

/-- `time.Parse` under `02 Jan 2006` on the text with single blanks. -/
theorem Parse_dayMonYear (y m d : Nat) (hy : y < 10000) (hm : 1 ≤ m ∧ m ≤ 12)
    (hd : 1 ≤ d ∧ (d : Int) ≤ daysIn (m : Int) (y : Int)) :
    time.Parse layoutDMY (dayMonYear y m d) = (⟨(y : Int), m, d, 0, 0, 0⟩, none) :=
  Parse_DMY_of_shape _ y m d (isDayMonYear_dayMonYear y m d hy hm hd)

/-! ## Extraction -/

/-- `FindOne` returns nil exactly when no element carries the class. -/
theorem FindOne_eq_none_iff (doc : Node) (cls : GoString) :
    htmlquery.FindOne doc cls = none ↔ hasMarker doc cls = false := by
  unfold htmlquery.FindOne hasMarker
  rw [List.find?_eq_none, List.any_eq_false]

/-- `FindOne` returns a node exactly when some element carries the class. -/
theorem FindOne_isSome_iff (doc : Node) (cls : GoString) :
    (∃ n, htmlquery.FindOne doc cls = some n) ↔ hasMarker doc cls = true := by
  have h := FindOne_eq_none_iff doc cls
  cases hf : htmlquery.FindOne doc cls with
  | none =>
    have := h.mp hf
    simp [this]
  | some n =>
    cases hm : hasMarker doc cls with
    | false => rw [h.mpr hm] at hf; cases hf
    | true => simp

/-- The error of the extraction is the first error of the eight checks in their order. -/
theorem fetch_error_first_failure (caseTable : Char → Char)
    (httpClient : Values → Except GoError Node) (pesel : GoString)
    (request : DrivingLicenceRequest) (doc : Node)
    (hdoc : httpClient (formValues pesel request) = .ok doc) :
    (fetchDrivingLicenceNumber caseTable httpClient pesel request).2 =
      Field.order.findSome? (fieldError doc) := by
  unfold fetchDrivingLicenceNumber
  rw [hdoc]
  simp only [Field.order, List.findSome?, fieldError]
  cases h1 : htmlquery.FindOne doc "dln-field".data with
  | none => rfl
  | some n1 =>
    rcases h2 : extractDate doc "licence-valid-from-field".data with ⟨t2, _ | e2⟩
    · rcases h3 : extractDate doc "licence-valid-to-field".data with ⟨t3, _ | e3⟩
      · rcases h4 : extractDate doc "dob-field".data with ⟨t4, _ | e4⟩
        · cases h5 : htmlquery.FindOne doc "name".data with
          | none => rfl
          | some n5 =>
            cases h6 : htmlquery.FindOne doc "address-field".data with
            | none => rfl
            | some n6 =>
              cases h7 : htmlquery.FindOne doc "issue-number-field".data with
              | none => rfl
              | some n7 =>
                cases h8 : htmlquery.FindOne doc "gender-field".data with
                | none => rfl
                | some n8 => rfl
        · rfl
      · rfl
    · rfl


/-- A date returned by `extractDate` is the parsed text of the marker element. -/
theorem extractDate_ok (doc : Node) (cls : GoString) (t : Time)
    (h : extractDate doc cls = (t, none)) :
    (markerText doc cls).map (time.Parse layoutDMY) = some (t, none) := by
  unfold extractDate at h
  unfold markerText
  cases hf : htmlquery.FindOne doc cls with
  | none => rw [hf] at h; simp at h
  | some n =>
    rw [hf] at h
    rcases hp : time.Parse layoutDMY (htmlquery.InnerText n) with ⟨t1, _ | e⟩
    · simp only [hp, Prod.mk.injEq, and_true] at h
      simp [hp, h]
    · simp [hp] at h

/-- `extractDate` returns no error exactly when the element is present and its text parses.
`extractDate` returns no error exactly when the element is present and its text parses. -/
theorem extractDate_error_eq_none_iff (doc : Node) (cls : GoString) :
    (extractDate doc cls).2 = none ↔
      ∃ txt, markerText doc cls = some txt ∧ (time.Parse layoutDMY txt).2 = none := by
  unfold extractDate markerText
  cases hf : htmlquery.FindOne doc cls with
  | none => simp
  | some n =>
    rcases hp : time.Parse layoutDMY (htmlquery.InnerText n) with ⟨t1, _ | e⟩ <;> simp [hp]

/-- The check of a field passes exactly when the field can be read. -/
theorem fieldError_eq_none_iff (doc : Node) (f : Field) :
    fieldError doc f = none ↔ fieldOk doc f = true := by
  cases f
  case validFrom =>
    simp only [fieldError, extractDate_error_eq_none_iff, fieldOk, Field.marker, Field.isDate]
    cases markerText doc "licence-valid-from-field".data <;> simp
  case validTo =>
    simp only [fieldError, extractDate_error_eq_none_iff, fieldOk, Field.marker, Field.isDate]
    cases markerText doc "licence-valid-to-field".data <;> simp
  case dateOfBirth =>
    simp only [fieldError, extractDate_error_eq_none_iff, fieldOk, Field.marker, Field.isDate]
    cases markerText doc "dob-field".data <;> simp
  all_goals
    simp only [fieldError, fieldOk, Field.marker, Field.isDate, markerText]
    split <;> simp [*]

/-- Every field has its place in the order of the checks. -/
theorem mem_Field_order (f : Field) : f ∈ Field.order := by
  cases f <;> simp [Field.order]

/-- All fields can be read exactly when all markers are present and the date texts parse. -/
theorem fieldOk_iff (doc : Node) :
    (∀ f : Field, fieldOk doc f = true) ↔
      (∀ f : Field, hasMarker doc f.marker = true) ∧
      (∀ f : Field, f.isDate = true →
        ∃ txt, markerText doc f.marker = some txt ∧ (time.Parse layoutDMY txt).2 = none) := by
  have key : ∀ f : Field, fieldOk doc f = true ↔
      (hasMarker doc f.marker = true ∧ (f.isDate = true →
        ∃ txt, markerText doc f.marker = some txt ∧ (time.Parse layoutDMY txt).2 = none)) := by
    intro f
    rw [← FindOne_isSome_iff]
    unfold fieldOk markerText
    cases hf : htmlquery.FindOne doc f.marker with
    | none => simp
    | some n => cases hd : f.isDate <;> simp [Option.isNone_iff_eq_none]
  constructor
  · intro h
    exact ⟨fun f => ((key f).mp (h f)).1, fun f => ((key f).mp (h f)).2⟩
  · intro h f
    exact (key f).mpr ⟨h.1 f, h.2 f⟩

/-- Every error of `fetchDrivingLicenceNumber` comes with the zero-value response. -/
theorem fetch_zero_of_error (caseTable : Char → Char)
    (httpClient : Values → Except GoError Node) (pesel : GoString)
    (request : DrivingLicenceRequest)
    (h : (fetchDrivingLicenceNumber caseTable httpClient pesel request).2 ≠ none) :
    (fetchDrivingLicenceNumber caseTable httpClient pesel request).1 =
      DrivingLicenceResponse.zero := by
  revert h
  unfold fetchDrivingLicenceNumber
  repeat' split
  all_goals simp


/-! ## Gender -/

/-- The sample case table sends no code point above U+007F to a letter of the gender tokens.
The sample case table sends no code point above U+007F to a letter of the gender tokens. -/
theorem sampleCaseTable_keeps_letters :
    ∀ r : Char, 0x7F < r.toNat → sampleCaseTable r ∉ tokenLetters := by
  intro r hr
  unfold sampleCaseTable
  split
  · decide
  · split
    · decide
    · split
      · decide
      · intro hmem
        simp only [tokenLetters, List.mem_cons, List.mem_singleton, List.not_mem_nil,
          or_false] at hmem
        rcases hmem with h | h | h | h | h <;> rw [h] at hr <;> revert hr <;> decide

/-- C1. `parseGender` is a total function into `Gender` (it has no error result), and
for every string `s` it returns `Male` when `s` is `MALE` in some mix of upper and lower
case, `Female` when `s` is `FEMALE` in some mix of case, and `Unknown` for every other
string.  The case table is any upper-case mapping that sends no code point above U+007F
to one of the letters of the two tokens, as the Unicode table does. -/
theorem parseGender_case_insensitive (caseTable : Char → Char)
    (hT : ∀ r : Char, 0x7F < r.toNat → caseTable r ∉ tokenLetters) (s : GoString) :
    parseGender caseTable s =
      if equalsAnyCase s "MALE".data = true then Male
      else if equalsAnyCase s "FEMALE".data = true then Female
      else Unknown := by
  unfold parseGender
  have h1 := map_ToUpper_eq_iff caseTable hT s "MALE".data (by decide)
  have h2 := map_ToUpper_eq_iff caseTable hT s "FEMALE".data (by decide)
  rw [strings_ToUpper_eq_map]
  simp only [h1, h2]

/-- Witness of C1 on the sample case table: a mixed-case token, the empty string, a
string of blanks, and a string with a long s in place of the letter it is not. -/
theorem parseGender_case_insensitive_witness :
    (∀ r : Char, 0x7F < r.toNat → sampleCaseTable r ∉ tokenLetters) ∧
    parseGender sampleCaseTable "fEmAlE".data = Female ∧
    parseGender sampleCaseTable "".data = Unknown ∧
    parseGender sampleCaseTable "  ".data = Unknown ∧
    parseGender sampleCaseTable "maſe".data = Unknown :=
  ⟨sampleCaseTable_keeps_letters,
   (parseGender_case_insensitive sampleCaseTable sampleCaseTable_keeps_letters _).trans
     (by decide),
   (parseGender_case_insensitive sampleCaseTable sampleCaseTable_keeps_letters _).trans
     (by decide),
   (parseGender_case_insensitive sampleCaseTable sampleCaseTable_keeps_letters _).trans
     (by decide),
   (parseGender_case_insensitive sampleCaseTable sampleCaseTable_keeps_letters _).trans
     (by decide)⟩

/-- C2. For every response whose gender is one of `Unknown`, `Male`, `Female`,
`parseGender` applied to the wire token `MarshalJSON` chooses returns that gender; the
tokens are `UNKNOWN`, `MALE` and `FEMALE`, and the token of `Unknown` is `UNKNOWN`. -/
theorem gender_wire_round_trip (caseTable : Char → Char) (u : DrivingLicenceResponse)
    (hg : u.Gender = Unknown ∨ u.Gender = Male ∨ u.Gender = Female) :
    parseGender caseTable u.MarshalJSON.gender = u.Gender ∧
    (u.Gender = Unknown → u.MarshalJSON.gender = "UNKNOWN".data) ∧
    (u.Gender = Male → u.MarshalJSON.gender = "MALE".data) ∧
    (u.Gender = Female → u.MarshalJSON.gender = "FEMALE".data) := by
  have hU : parseGender caseTable "UNKNOWN".data = Unknown := by
    simp [parseGender, strings.ToUpper, isASCIIString, hasLower, Unknown]
  have hM : parseGender caseTable "MALE".data = Male := by
    simp [parseGender, strings.ToUpper, isASCIIString, hasLower]
  have hF : parseGender caseTable "FEMALE".data = Female := by
    simp [parseGender, strings.ToUpper, isASCIIString, hasLower]
  rcases hg with h | h | h
  · have e : u.MarshalJSON.gender = "UNKNOWN".data := by
      simp [DrivingLicenceResponse.MarshalJSON, h, Unknown, Male, Female]
    rw [e, h]
    exact ⟨hU, fun _ => rfl, fun h1 => by simp [Unknown, Male] at h1,
      fun h1 => by simp [Unknown, Female] at h1⟩
  · have e : u.MarshalJSON.gender = "MALE".data := by
      simp [DrivingLicenceResponse.MarshalJSON, h]
    rw [e, h]
    exact ⟨hM, fun h1 => by simp [Unknown, Male] at h1, fun _ => rfl,
      fun h1 => by simp [Male, Female] at h1⟩
  · have e : u.MarshalJSON.gender = "FEMALE".data := by
      simp [DrivingLicenceResponse.MarshalJSON, h, Male, Female]
    rw [e, h]
    exact ⟨hF, fun h1 => by simp [Unknown, Female] at h1,
      fun h1 => by simp [Male, Female] at h1, fun _ => rfl⟩

/-- Witness of C2 on a response whose gender is `Female`. -/
theorem gender_wire_round_trip_witness :
    (sampleResponse.Gender = Unknown ∨ sampleResponse.Gender = Male ∨
      sampleResponse.Gender = Female) ∧
    sampleResponse.MarshalJSON.gender = "FEMALE".data ∧
    parseGender sampleCaseTable sampleResponse.MarshalJSON.gender = Female :=
  ⟨Or.inr (Or.inr rfl), by decide,
   (gender_wire_round_trip sampleCaseTable sampleResponse (Or.inr (Or.inr rfl))).1⟩


/-! ## Dates on the wire and on the page -/

/-- C3, as stated, fails: a well-formed date in the year 10000 is written as
`10000-01-01`, which `time.Parse` rejects under the layout `2006-01-02`, so
`UnmarshalJSON` returns an error for the text `MarshalJSON` wrote. -/
theorem date_round_trip_fails_for_year_10000 :
    (⟨10000, 1, 1, 0, 0, 0⟩ : Time).valid ∧
    time.Format ⟨10000, 1, 1, 0, 0, 0⟩ layoutISO = "10000-01-01".data ∧
    time.Parse layoutISO (time.Format ⟨10000, 1, 1, 0, 0, 0⟩ layoutISO) =
      (Time.zero, some (newParseError "2006-01-02".data "10000-01-01".data "-".data
        "0-01-01".data [])) := by
  decide

/-- C3, amended. For every well-formed date `d` whose year lies in 0..9999, whatever its
clock reading and zone offset, decoding the text that `Format` writes under the layout
`2006-01-02` succeeds and yields the calendar date of `d` (same year, month and day, at
midnight UTC); so `UnmarshalJSON` accepts the `dateOfBirth` member that `MarshalJSON`
wrote for such a date and stores that calendar date. -/
theorem date_round_trip_four_digit_years (d : Time) (hv : d.valid)
    (hy : 0 ≤ d.year ∧ d.year ≤ 9999) :
    time.Parse layoutISO (time.Format d layoutISO) =
      (⟨d.year, d.month, d.day, 0, 0, 0⟩, none) ∧
    ∀ (caseTable : Char → Char) (u : DrivingLicenceResponse) (aux : RequestWire),
      u.DateOfBirth = d → aux.dateOfBirth = u.MarshalJSON.dateOfBirth →
      DrivingLicenceRequest.UnmarshalJSON caseTable (.ok aux) =
        (⟨aux.nino, aux.forename, aux.surname, aux.postcode,
          parseGender caseTable aux.gender, ⟨d.year, d.month, d.day, 0, 0, 0⟩⟩, none) := by
  have h := Parse_Format_ISO d hv hy
  refine ⟨h, ?_⟩
  intro caseTable u aux hu haux
  have e : aux.dateOfBirth = time.Format d layoutISO := by
    rw [haux, ← hu]
    rfl
  simp only [DrivingLicenceRequest.UnmarshalJSON, e, h]

/-- Witness of C3 (amended): 29 February 2024, seen at 23:30 in a zone one hour east of
UTC. -/
theorem date_round_trip_four_digit_years_witness :
    (⟨2024, 2, 29, 84600, 0, 3600⟩ : Time).valid ∧
    (0 ≤ (⟨2024, 2, 29, 84600, 0, 3600⟩ : Time).year ∧
      (⟨2024, 2, 29, 84600, 0, 3600⟩ : Time).year ≤ 9999) ∧
    time.Parse layoutISO (time.Format ⟨2024, 2, 29, 84600, 0, 3600⟩ layoutISO) =
      (⟨2024, 2, 29, 0, 0, 0⟩, none) :=
  ⟨by decide, by decide,
   (date_round_trip_four_digit_years ⟨2024, 2, 29, 84600, 0, 3600⟩ (by decide)
     (by decide)).1⟩

/-- Every error of the chunk loop is a parse error. -/
theorem parseLoop_error_is_parseError (alayout avalue : GoString) :
    ∀ (chunks : List Chunk) (value : GoString) (st : ParseState) (e : GoError),
      time.parseLoop alayout avalue chunks value st = .error e →
      ∃ pe : ParseError, e = .parseError pe
  | [], value, st, e => by
    intro h
    simp [time.parseLoop] at h
  | ch :: rest, value, st, e => by
    intro h
    unfold time.parseLoop at h
    repeat' split at h
    all_goals first
      | exact parseLoop_error_is_parseError alayout avalue rest _ _ e h
      | (simp only [Except.error.injEq] at h
         exact ⟨_, h.symm⟩)

/-- The error component of a guarded result. -/
theorem ite_snd_some {α β : Type} (c : Prop) [Decidable c] (a b : α) (x e : β)
    (h : (if c then (a, some x) else (b, none)).2 = some e) : x = e := by
  split at h <;> simp_all

/-- Every error of `time.Parse` is a parse error. -/
theorem Parse_error_is_parseError (layout : Layout) (value : GoString) (e : GoError)
    (h : (time.Parse layout value).2 = some e) : ∃ pe : ParseError, e = .parseError pe := by
  unfold time.Parse at h
  cases hloop : time.parseLoop layout.text value layout.chunks value ⟨0, -1, -1⟩ with
  | error e1 =>
    simp only [hloop, Option.some.injEq] at h
    subst h
    exact parseLoop_error_is_parseError _ _ _ _ _ _ hloop
  | ok p =>
    obtain ⟨st, v1⟩ := p
    simp only [hloop] at h
    rcases hs : skip v1 layout.tail with ⟨v2, _ | _⟩
    · simp only [hs, Option.some.injEq] at h
      exact ⟨_, h.symm⟩
    · simp only [hs] at h
      by_cases hx : v2.length ≠ 0
      · simp only [if_pos hx, Option.some.injEq] at h
        exact ⟨_, h.symm⟩
      · simp only [if_neg hx] at h
        exact ⟨_, (ite_snd_some _ _ _ _ _ h).symm⟩

/-- No message of a parse error is the message of the not-found error. -/
theorem parseError_message_ne (e : ParseError) :
    e.Error ≠ "unable to find valid from".data := by
  unfold ParseError.Error
  split <;> simp

/-- C5. When the element selected for class `cls` has as its text a two-digit day, a
three-letter English month abbreviation and a four-digit year that name a real calendar
date, `extractDate` succeeds with exactly that date; when its text is `2020-01-05`,
`extractDate` fails with a parse error; every error `extractDate` returns for an
element that is present is a `time` parse error, which differs, as a value and in its
message, from the error returned when the element is absent; and `extractDate` succeeds
only on day-month-year texts (blanks may repeat and the month may be in any case), so a
text in any other format yields such a parse error. -/
theorem extractDate_reads_day_month_year (doc : Node) (cls : GoString) (n : Node)
    (hn : htmlquery.FindOne doc cls = some n) :
    (∀ y m d : Nat, y < 10000 → 1 ≤ m ∧ m ≤ 12 →
      1 ≤ d ∧ (d : Int) ≤ daysIn (m : Int) (y : Int) →
      htmlquery.InnerText n = dayMonYear y m d →
      extractDate doc cls = (⟨(y : Int), m, d, 0, 0, 0⟩, none)) ∧
    (htmlquery.InnerText n = "2020-01-05".data →
      extractDate doc cls =
        (Time.zero, some (newParseError "02 Jan 2006".data "2020-01-05".data " ".data
          "20-01-05".data []))) ∧
    (∀ err : GoError, (extractDate doc cls).2 = some err →
      (∃ e : ParseError, err = .parseError e) ∧
      err ≠ errors.New "unable to find valid from".data ∧
      err.Error ≠ (errors.New "unable to find valid from".data).Error) ∧
    (∀ t : Time, extractDate doc cls = (t, none) ↔
      ∃ y m d : Nat, isDayMonYear (htmlquery.InnerText n) y m d ∧
        t = ⟨(y : Int), m, d, 0, 0, 0⟩) ∧
    ((¬ ∃ y m d : Nat, isDayMonYear (htmlquery.InnerText n) y m d) →
      ∃ e : ParseError, extractDate doc cls = (Time.zero, some (.parseError e))) := by
  have hiff : ∀ t : Time, extractDate doc cls = (t, none) ↔
      ∃ y m d : Nat, isDayMonYear (htmlquery.InnerText n) y m d ∧
        t = ⟨(y : Int), m, d, 0, 0, 0⟩ := by
    intro t
    simp only [extractDate, hn]
    constructor
    · intro h
      rcases hp : time.Parse layoutDMY (htmlquery.InnerText n) with ⟨t1, _ | e⟩
      · simp only [hp, Prod.mk.injEq, and_true] at h
        rw [← h]
        exact Parse_DMY_ok_shape _ _ hp
      · simp [hp] at h
    · rintro ⟨y, m, d, hs, rfl⟩
      simp only [Parse_DMY_of_shape _ y m d hs]
  refine ⟨?_, ?_, ?_, hiff, ?_⟩
  rotate_left 3
  · intro hno
    rcases hp : time.Parse layoutDMY (htmlquery.InnerText n) with ⟨t1, _ | e⟩
    · obtain ⟨y, m, d, hs, _⟩ := Parse_DMY_ok_shape _ _ hp
      exact absurd ⟨y, m, d, hs⟩ hno
    · obtain ⟨pe, rfl⟩ := Parse_error_is_parseError layoutDMY _ e (by rw [hp])
      exact ⟨pe, by simp only [extractDate, hn, hp]⟩
  · intro y m d hy hm hd htxt
    simp only [extractDate, hn, htxt, Parse_dayMonYear y m d hy hm hd]
  · intro htxt
    simp only [extractDate, hn, htxt]
    rfl
  · intro err herr
    simp only [extractDate, hn] at herr
    rcases hp : time.Parse layoutDMY (htmlquery.InnerText n) with ⟨t, _ | e⟩
    · simp [hp] at herr
    · simp only [hp, Option.some.injEq] at herr
      subst herr
      have hpe : ∃ pe : ParseError, e = .parseError pe :=
        Parse_error_is_parseError layoutDMY (htmlquery.InnerText n) e (by rw [hp])
      obtain ⟨pe, rfl⟩ := hpe
      refine ⟨⟨pe, rfl⟩, by simp [errors.New], ?_⟩
      simp only [GoError.Error, errors.New]
      exact parseError_message_ne pe

/-- Witness of C5: the valid-from element of the sample page reads `05 Jan 2020`, and
the same element with the text `2020-01-05` yields a parse error. -/
theorem extractDate_reads_day_month_year_witness :
    htmlquery.FindOne samplePage "licence-valid-from-field".data =
      some (markerElement "licence-valid-from-field".data "05 Jan 2020".data) ∧
    extractDate samplePage "licence-valid-from-field".data = (⟨2020, 1, 5, 0, 0, 0⟩, none) ∧
    htmlquery.FindOne badDateNoNamePage "licence-valid-from-field".data =
      some (markerElement "licence-valid-from-field".data "2020-01-05".data) ∧
    extractDate badDateNoNamePage "licence-valid-from-field".data =
      (Time.zero, some (newParseError "02 Jan 2006".data "2020-01-05".data " ".data
        "20-01-05".data [])) :=
  ⟨rfl,
   (extractDate_reads_day_month_year samplePage "licence-valid-from-field".data
      (markerElement "licence-valid-from-field".data "05 Jan 2020".data) rfl).1
      2020 1 5 (by decide) (by decide) (by decide) (by decide),
   rfl,
   (extractDate_reads_day_month_year badDateNoNamePage "licence-valid-from-field".data
      (markerElement "licence-valid-from-field".data "2020-01-05".data) rfl).2.1 rfl⟩

/-! ## Extraction of the eight fields -/

/-- C4. For every parsed document without an element carrying the class `dln-field`,
whatever else it contains, `fetchDrivingLicenceNumber` returns the zero-value response
together with the error `unable to find driving licence`, whose message names the
driving licence field. -/
theorem missing_licence_number_marker (caseTable : Char → Char)
    (httpClient : Values → Except GoError Node) (pesel : GoString)
    (request : DrivingLicenceRequest) (doc : Node)
    (hdoc : httpClient (formValues pesel request) = .ok doc)
    (hmiss : hasMarker doc "dln-field".data = false) :
    fetchDrivingLicenceNumber caseTable httpClient pesel request =
      (DrivingLicenceResponse.zero,
        some (errors.New "unable to find driving licence".data)) ∧
    mentions (errors.New "unable to find driving licence".data).Error
      Field.licenceNumber.label = true := by
  refine ⟨?_, by decide⟩
  unfold fetchDrivingLicenceNumber
  rw [hdoc]
  simp only [(FindOne_eq_none_iff doc "dln-field".data).mpr hmiss]

/-- Witness of C4: the sample page without its licence-number element, which still has
the seven other markers. -/
theorem missing_licence_number_marker_witness :
    hasMarker (pageWithout "dln-field".data) "dln-field".data = false ∧
    hasMarker (pageWithout "dln-field".data) "gender-field".data = true ∧
    fetchDrivingLicenceNumber sampleCaseTable (fun _ => .ok (pageWithout "dln-field".data))
        fetchPesel.1 sampleRequest =
      (DrivingLicenceResponse.zero,
        some (errors.New "unable to find driving licence".data)) :=
  ⟨by decide, by decide,
   (missing_licence_number_marker sampleCaseTable
     (fun _ => .ok (pageWithout "dln-field".data)) fetchPesel.1 sampleRequest
     (pageWithout "dln-field".data) rfl (by decide)).1⟩

/-- The message of `extractDate` for an absent element is the same for every class. -/
theorem extractDate_absent (doc : Node) (cls : GoString)
    (h : hasMarker doc cls = false) :
    extractDate doc cls = (Time.zero, some (errors.New "unable to find valid from".data)) := by
  simp only [extractDate, (FindOne_eq_none_iff doc cls).mpr h]

/-- On a document, the error of `fetchDrivingLicenceNumber` is the error of the check
of a field that fails while every check before it passes. -/
theorem fetch_error_of_first_failure (caseTable : Char → Char)
    (httpClient : Values → Except GoError Node) (pesel : GoString)
    (request : DrivingLicenceRequest) (doc : Node)
    (hdoc : httpClient (formValues pesel request) = .ok doc) (f : Field) (e : GoError)
    (hf : fieldError doc f = some e)
    (hg : ∀ g : Field, g.rank < f.rank → fieldError doc g = none) :
    (fetchDrivingLicenceNumber caseTable httpClient pesel request).2 = some e := by
  rw [fetch_error_first_failure caseTable httpClient pesel request doc hdoc]
  cases f <;> simp [Field.order, List.findSome?, Field.rank, hf, hg]

/-- C6, as stated, fails: on a page that has the four markers checked before the full
name, with the valid-from text in the wire format, and that lacks the full-name element,
the error is the parse error of the valid-from text and does not name the full name. -/
theorem missing_name_after_bad_date_reports_the_date :
    (∀ g : Field, g.rank < Field.fullName.rank →
      hasMarker badDateNoNamePage g.marker = true) ∧
    hasMarker badDateNoNamePage Field.fullName.marker = false ∧
    (fetchDrivingLicenceNumber sampleCaseTable (fun _ => .ok badDateNoNamePage) fetchPesel.1
        sampleRequest).2 =
      some (newParseError "02 Jan 2006".data "2020-01-05".data " ".data
        "20-01-05".data []) ∧
    mentions (newParseError "02 Jan 2006".data "2020-01-05".data " ".data
        "20-01-05".data []).Error Field.fullName.label = false := by
  refine ⟨?_, by decide, by decide, by decide⟩
  intro g hg
  cases g <;> first | decide | (simp [Field.rank] at hg)

/-- C6, amended. For each of the six fields licence number, valid-from, full name,
address, issue number and gender: when every field checked before it can be read from
the document (its marker element is present and, for a date field, its text parses) and
the field's own marker element is absent, `fetchDrivingLicenceNumber` returns the
zero-value response with an error whose message names that field. -/
theorem missing_marker_error_names_field (caseTable : Char → Char)
    (httpClient : Values → Except GoError Node) (pesel : GoString)
    (request : DrivingLicenceRequest) (doc : Node)
    (hdoc : httpClient (formValues pesel request) = .ok doc) (f : Field)
    (hf : f ≠ .validTo ∧ f ≠ .dateOfBirth)
    (hbefore : ∀ g : Field, g.rank < f.rank → fieldOk doc g = true)
    (hmiss : hasMarker doc f.marker = false) :
    ∃ err : GoError,
      fetchDrivingLicenceNumber caseTable httpClient pesel request =
        (DrivingLicenceResponse.zero, some err) ∧
      mentions err.Error f.label = true := by
  have hnone := (FindOne_eq_none_iff doc f.marker).mpr hmiss
  have hg : ∀ g : Field, g.rank < f.rank → fieldError doc g = none :=
    fun g h => (fieldError_eq_none_iff doc g).mpr (hbefore g h)
  have key : ∀ e : GoError, fieldError doc f = some e →
      fetchDrivingLicenceNumber caseTable httpClient pesel request =
        (DrivingLicenceResponse.zero, some e) := by
    intro e he
    have h2 := fetch_error_of_first_failure caseTable httpClient pesel request doc hdoc f e
      he hg
    have h1 := fetch_zero_of_error caseTable httpClient pesel request (by rw [h2]; simp)
    exact Prod.ext h1 h2
  have hex : ∃ e : GoError, fieldError doc f = some e ∧ mentions e.Error f.label = true := by
    cases f
    case validTo => exact absurd rfl hf.1
    case dateOfBirth => exact absurd rfl hf.2
    case validFrom =>
      exact ⟨errors.New "unable to find valid from".data,
        by
          have h := extractDate_absent doc _ hmiss
          simp only [Field.marker] at h
          simp only [fieldError, h],
        by decide⟩
    case licenceNumber =>
      exact ⟨errors.New "unable to find driving licence".data,
        by simp only [Field.marker] at hnone; simp only [fieldError, hnone], by decide⟩
    case fullName =>
      exact ⟨errors.New "unable to find full name".data,
        by simp only [Field.marker] at hnone; simp only [fieldError, hnone], by decide⟩
    case address =>
      exact ⟨errors.New "unable to find address".data,
        by simp only [Field.marker] at hnone; simp only [fieldError, hnone], by decide⟩
    case issueNumber =>
      exact ⟨errors.New "unable to find license issue number".data,
        by simp only [Field.marker] at hnone; simp only [fieldError, hnone], by decide⟩
    case gender =>
      exact ⟨errors.New "unable to find gender".data,
        by simp only [Field.marker] at hnone; simp only [fieldError, hnone], by decide⟩
  obtain ⟨e, he, hm⟩ := hex
  exact ⟨e, key e he, hm⟩

/-- Witness of C6 (amended): the sample page without its gender element. -/
theorem missing_marker_error_names_field_witness :
    (Field.gender ≠ Field.validTo ∧ Field.gender ≠ Field.dateOfBirth) ∧
    (∀ g : Field, g.rank < Field.gender.rank →
      fieldOk (pageWithout "gender-field".data) g = true) ∧
    hasMarker (pageWithout "gender-field".data) Field.gender.marker = false ∧
    ∃ err : GoError,
      fetchDrivingLicenceNumber sampleCaseTable
          (fun _ => .ok (pageWithout "gender-field".data)) fetchPesel.1 sampleRequest =
        (DrivingLicenceResponse.zero, some err) ∧
      mentions err.Error Field.gender.label = true :=
  ⟨by decide,
   fun g hg => by cases g <;> first | decide | (simp [Field.rank] at hg),
   by decide,
   missing_marker_error_names_field sampleCaseTable
     (fun _ => .ok (pageWithout "gender-field".data)) fetchPesel.1 sampleRequest
     (pageWithout "gender-field".data) rfl Field.gender (by decide)
     (fun g hg => by cases g <;> first | decide | (simp [Field.rank] at hg))
     (by decide)⟩

/-- The check of the valid-to and date-of-birth fields reports an absent element with
the message of the valid-from field: on the sample page without its valid-to element the
error is `unable to find valid from`, which does not name the valid-to field. -/
theorem missing_valid_to_reported_as_valid_from :
    fieldOk (pageWithout "licence-valid-to-field".data) Field.licenceNumber = true ∧
    fieldOk (pageWithout "licence-valid-to-field".data) Field.validFrom = true ∧
    hasMarker (pageWithout "licence-valid-to-field".data) Field.validTo.marker = false ∧
    fetchDrivingLicenceNumber sampleCaseTable
        (fun _ => .ok (pageWithout "licence-valid-to-field".data)) fetchPesel.1
        sampleRequest =
      (DrivingLicenceResponse.zero, some (errors.New "unable to find valid from".data)) ∧
    mentions (errors.New "unable to find valid from".data).Error Field.validTo.label =
      false := by
  decide

/-- C9. Extraction is all-or-nothing. On every parsed document the extraction succeeds
exactly when all eight marker elements are present and the texts of the three date
elements parse; on success the four string fields are the texts of their elements, the
three dates are the parsed dates and the gender is `parseGender` of the gender text; on
every failure the response is the zero value, also from `getDrivingLicenceNumber`. -/
theorem extraction_all_or_nothing (caseTable : Char → Char)
    (httpClient : Values → Except GoError Node) (pesel : GoString)
    (request : DrivingLicenceRequest) (doc : Node)
    (hdoc : httpClient (formValues pesel request) = .ok doc) :
    ((fetchDrivingLicenceNumber caseTable httpClient pesel request).2 = none ↔
      (∀ f : Field, hasMarker doc f.marker = true) ∧
      (∀ f : Field, f.isDate = true →
        ∃ txt, markerText doc f.marker = some txt ∧
          (time.Parse layoutDMY txt).2 = none)) ∧
    ((fetchDrivingLicenceNumber caseTable httpClient pesel request).2 = none →
      markerText doc "name".data =
        some (fetchDrivingLicenceNumber caseTable httpClient pesel request).1.FullName ∧
      markerText doc "address-field".data =
        some (fetchDrivingLicenceNumber caseTable httpClient pesel request).1.Address ∧
      markerText doc "dln-field".data =
        some (fetchDrivingLicenceNumber caseTable httpClient pesel
          request).1.DrivingLicenceNumber ∧
      markerText doc "issue-number-field".data =
        some (fetchDrivingLicenceNumber caseTable httpClient pesel
          request).1.LicenceIssueNo ∧
      (markerText doc "licence-valid-from-field".data).map (time.Parse layoutDMY) =
        some ((fetchDrivingLicenceNumber caseTable httpClient pesel
          request).1.LicenceValidFrom, none) ∧
      (markerText doc "licence-valid-to-field".data).map (time.Parse layoutDMY) =
        some ((fetchDrivingLicenceNumber caseTable httpClient pesel
          request).1.LicenceValidTo, none) ∧
      (markerText doc "dob-field".data).map (time.Parse layoutDMY) =
        some ((fetchDrivingLicenceNumber caseTable httpClient pesel
          request).1.DateOfBirth, none) ∧
      (markerText doc "gender-field".data).map (parseGender caseTable) =
        some (fetchDrivingLicenceNumber caseTable httpClient pesel request).1.Gender) ∧
    ((fetchDrivingLicenceNumber caseTable httpClient pesel request).2 ≠ none →
      (fetchDrivingLicenceNumber caseTable httpClient pesel request).1 =
        DrivingLicenceResponse.zero) ∧
    ((getDrivingLicenceNumber caseTable httpClient request).2 ≠ none →
      (getDrivingLicenceNumber caseTable httpClient request).1 =
        DrivingLicenceResponse.zero) := by
  refine ⟨?_, ?_, fetch_zero_of_error caseTable httpClient pesel request, ?_⟩
  · rw [fetch_error_first_failure caseTable httpClient pesel request doc hdoc,
      List.findSome?_eq_none_iff, ← fieldOk_iff]
    constructor
    · intro h f
      exact (fieldError_eq_none_iff doc f).mp (h f (mem_Field_order f))
    · intro h f _
      exact (fieldError_eq_none_iff doc f).mpr (h f)
  · unfold fetchDrivingLicenceNumber
    rw [hdoc]
    simp only
    cases h1 : htmlquery.FindOne doc "dln-field".data with
    | none => simp
    | some n1 =>
      rcases h2 : extractDate doc "licence-valid-from-field".data with ⟨t2, _ | e2⟩
      · rcases h3 : extractDate doc "licence-valid-to-field".data with ⟨t3, _ | e3⟩
        · rcases h4 : extractDate doc "dob-field".data with ⟨t4, _ | e4⟩
          · cases h5 : htmlquery.FindOne doc "name".data with
            | none => simp
            | some n5 =>
              cases h6 : htmlquery.FindOne doc "address-field".data with
              | none => simp
              | some n6 =>
                cases h7 : htmlquery.FindOne doc "issue-number-field".data with
                | none => simp
                | some n7 =>
                  cases h8 : htmlquery.FindOne doc "gender-field".data with
                  | none => simp
                  | some n8 =>
                    intro _
                    simp only [markerText, h1, h5, h6, h7, h8, Option.map_some', true_and, and_true]
                    have e2 := extractDate_ok doc _ t2 h2
                    have e3 := extractDate_ok doc _ t3 h3
                    have e4 := extractDate_ok doc _ t4 h4
                    simp only [markerText] at e2 e3 e4
                    exact ⟨e2, e3, e4⟩
          · simp
        · simp
      · simp
  · unfold getDrivingLicenceNumber
    simp only [fetchPesel]
    split <;> simp

/-- Witness of C9: the complete sample page is read in full. -/
theorem extraction_all_or_nothing_witness :
    fetchDrivingLicenceNumber sampleCaseTable (fun _ => .ok samplePage) fetchPesel.1
        sampleRequest =
      (sampleResponse, none) ∧
    ((∀ f : Field, hasMarker samplePage f.marker = true) ∧
      (∀ f : Field, f.isDate = true →
        ∃ txt, markerText samplePage f.marker = some txt ∧
          (time.Parse layoutDMY txt).2 = none)) :=
  ⟨by decide,
   (extraction_all_or_nothing sampleCaseTable (fun _ => .ok samplePage) fetchPesel.1
     sampleRequest samplePage rfl).1.mp (by decide)⟩

/-- C10. Extraction failures have a fixed precedence. The error of
`fetchDrivingLicenceNumber` on a document is the first error met when the checks of
licence number, valid-from, valid-to, date of birth, full name, address, issue number
and gender are run in that order: when the check of a field fails and the checks of all
fields before it pass, the error returned is the error of that field's check, whatever
the later fields look like; a missing licence-number marker always yields the
licence-number error. -/
theorem extraction_error_precedence (caseTable : Char → Char)
    (httpClient : Values → Except GoError Node) (pesel : GoString)
    (request : DrivingLicenceRequest) (doc : Node)
    (hdoc : httpClient (formValues pesel request) = .ok doc) :
    (fetchDrivingLicenceNumber caseTable httpClient pesel request).2 =
      Field.order.findSome? (fieldError doc) ∧
    (∀ (f : Field) (e : GoError), fieldError doc f = some e →
      (∀ g : Field, g.rank < f.rank → fieldOk doc g = true) →
      (fetchDrivingLicenceNumber caseTable httpClient pesel request).2 = some e) ∧
    (hasMarker doc "dln-field".data = false →
      (fetchDrivingLicenceNumber caseTable httpClient pesel request).2 =
        some (errors.New "unable to find driving licence".data)) := by
  refine ⟨fetch_error_first_failure caseTable httpClient pesel request doc hdoc, ?_, ?_⟩
  · intro f e hf hg
    exact fetch_error_of_first_failure caseTable httpClient pesel request doc hdoc f e hf
      (fun g h => (fieldError_eq_none_iff doc g).mpr (hg g h))
  · intro hmiss
    apply fetch_error_of_first_failure caseTable httpClient pesel request doc hdoc
      Field.licenceNumber
    · simp only [fieldError, (FindOne_eq_none_iff doc "dln-field".data).mpr hmiss]
    · intro g h
      simp [Field.rank] at h

/-- Witness of C10: on a page with an unparsable valid-from text and no full-name
element the earlier of the two failures is reported. -/
theorem extraction_error_precedence_witness :
    fieldError badDateNoNamePage Field.validFrom =
      some (newParseError "02 Jan 2006".data "2020-01-05".data " ".data
        "20-01-05".data []) ∧
    fieldError badDateNoNamePage Field.fullName =
      some (errors.New "unable to find full name".data) ∧
    (fetchDrivingLicenceNumber sampleCaseTable (fun _ => .ok badDateNoNamePage) fetchPesel.1
        sampleRequest).2 =
      some (newParseError "02 Jan 2006".data "2020-01-05".data " ".data
        "20-01-05".data []) :=
  ⟨by decide, by decide,
   (extraction_error_precedence sampleCaseTable (fun _ => .ok badDateNoNamePage)
     fetchPesel.1 sampleRequest badDateNoNamePage rfl).2.1 Field.validFrom _ (by decide)
     (fun g hg => by cases g <;> first | decide | (simp [Field.rank] at hg))⟩

/-! ## The form and the handler -/

/-- C7. For every pesel token and every request the form has exactly the eleven keys
of the literal, each once and each with one value: the empty passport number, the
token, the four strings of the request, the decimal code of the gender (`0`, `1`, `2`
for `Unknown`, `Male`, `Female`), the decimal day, month number and year of the date of
birth, and the consent flag `1`. -/
theorem form_has_eleven_fields (pesel : GoString) (request : DrivingLicenceRequest) :
    formValues pesel request =
      [("applicantPassportNumber".data, ["".data]),
       ("pesel".data, [pesel]),
       ("nino".data, [request.Nino]),
       ("forename".data, [request.Forename]),
       ("surname".data, [request.Surname]),
       ("postcode".data, [request.Postcode]),
       ("gender".data, [strconv.Itoa request.Gender]),
       ("dob.day".data, [strconv.Itoa request.DateOfBirth.day]),
       ("dob.month".data, [strconv.Itoa request.DateOfBirth.month]),
       ("dob.year".data, [strconv.Itoa request.DateOfBirth.year]),
       ("dwpPermission".data, ["1".data])] ∧
    ((formValues pesel request).map Prod.fst).Nodup ∧
    (formValues pesel request).length = 11 ∧
    (formValues pesel request).get "pesel".data = some [pesel] ∧
    (formValues pesel request).get "gender".data = some [strconv.Itoa request.Gender] ∧
    (formValues pesel request).get "dob.month".data =
      some [strconv.Itoa request.DateOfBirth.month] ∧
    strconv.Itoa Unknown = "0".data ∧ strconv.Itoa Male = "1".data ∧
    strconv.Itoa Female = "2".data ∧
    (List.range 12).map (fun i => strconv.Itoa ((i + 1 : Nat) : Int)) =
      ["1".data, "2".data, "3".data, "4".data, "5".data, "6".data, "7".data, "8".data,
       "9".data, "10".data, "11".data, "12".data] := by
  refine ⟨rfl, ?_, rfl, ?_, ?_, ?_, by decide, by decide, by decide, by decide⟩
  · simp only [formValues, Time.Date, List.map]
    decide
  · simp [formValues, Time.Date, Values.get, List.find?]
  · simp [formValues, Time.Date, Values.get, List.find?]
  · simp [formValues, Time.Date, Values.get, List.find?]

/-- On every pipeline error the handler sets status 400, writes nothing to the response
body and prints the message on standard output. -/
theorem handler_on_pipeline_error (caseTable : Char → Char)
    (httpClient : Values → Except GoError Node) (decoded : Except GoError RequestWire)
    (t : DrivingLicenceRequest) (r : DrivingLicenceResponse) (e : GoError)
    (hdec : DrivingLicenceRequest.UnmarshalJSON caseTable decoded = (t, none))
    (herr : getDrivingLicenceNumber caseTable httpClient t = (r, some e)) :
    handler caseTable httpClient decoded =
      .completed ⟨400, [], [.responseWriter, .str e.Error]⟩ := by
  simp only [handler, hdec, herr]

/-- C8 at its failing input: for the request of the end-to-end scenario and an upstream
page without the gender element, the pipeline returns the error `unable to find gender`
and the handler answers with status 400 and an empty body; the message goes to standard
output, and the body does not mention the gender. -/
theorem handler_error_body_is_empty :
    getDrivingLicenceNumber sampleCaseTable (fun _ => .ok (pageWithout "gender-field".data))
        sampleRequest =
      (DrivingLicenceResponse.zero, some (errors.New "unable to find gender".data)) ∧
    DrivingLicenceRequest.UnmarshalJSON sampleCaseTable (.ok sampleWire) =
      (sampleRequest, none) ∧
    handler sampleCaseTable (fun _ => .ok (pageWithout "gender-field".data))
        (.ok sampleWire) =
      .completed ⟨400, [], [.responseWriter, .str "unable to find gender".data]⟩ ∧
    mentions (bodyText []) "gender".data = false := by
  decide

end Dvla
